import Mathlib

/-!
Verification development for the RFML HDF5 convention layer
(`rfml_hdf5.py`).  The HDF5 container is shallowly embedded as a tree of
groups carrying named attributes and datasets; every public function of
the module is translated line by line into a pure Lean function over that
state.  Machine `int32` values are modelled as integers reduced modulo
`2 ^ 32`; IEEE doubles are modelled as rationals (the only float-to-float
conversion exercised by the code, float32 values widening to float64, is
exact, so no rounding is modelled); fixed-width space-padded strings are
modelled by their logical content truncated to the width, the padding
being invisible after decoding.

Python exceptions are made explicit: every operation reports separately
the exception it RAISES to its caller, the exceptions its handlers merely
PRINT, and whether the container handle was released when it returned.
-/

namespace RFML

/-- Byte order chosen at write time. -/
inductive Endian
  | little
  | big
deriving DecidableEq, Repr

/-- On-disk element types used by the module: IEEE 64- and 32-bit floats,
32-bit signed integers (each with an endianness), and fixed-width
space-padded ASCII strings of a given byte size. -/
inductive HType
  | f64 : Endian → HType
  | f32 : Endian → HType
  | i32 : Endian → HType
  | s : Nat → HType
deriving DecidableEq, Repr

/-- A scalar element held by an attribute or dataset: a number (rational,
covering both the integer and the floating cases) or a text string. -/
inductive HElem
  | num : ℚ → HElem
  | str : String → HElem
deriving DecidableEq, Repr

/-- An attribute: a one-dimensional typed array bound to a group by name. -/
structure HAttr where
  atype : HType
  avals : List HElem
deriving DecidableEq, Repr

/-- A dataset: a typed, shaped array owned by a group.  Values are kept
flattened; the shape is recorded separately. -/
structure HDataset where
  dtype : HType
  shape : List Nat
  dvals : List HElem
deriving DecidableEq, Repr

/-- A group: named attributes and named datasets, in creation order. -/
structure HGroup where
  attrs : List (String × HAttr)
  dsets : List (String × HDataset)
deriving DecidableEq, Repr

/-- The container: the top-level groups of the file (the convention uses
only the single group `data` directly under the root). -/
structure Container where
  groups : List (String × HGroup)
deriving DecidableEq, Repr

/-- A file on disk, addressed by the path the operations receive:
`none` when the file is absent (so opening raises). -/
abbrev File := Option Container

/-- The Python exceptions the module can raise or print. -/
inductive Err
  | openError
  | attributeError : String → Err
  | keyError : Err
  | valueError : Err
  | nameError : String → Err
  | typeError : Err
  | indexError : Err
  | assertionError : Err
  | createError : Err
  | exception : String → Err
deriving DecidableEq, Repr

/-! ### Association-list primitives (groups, attributes, datasets by name) -/

/-- Look a name up in an association list (first match wins, as in HDF5
where names are unique). -/
def lookupA {α : Type} : List (String × α) → String → Option α
  | [], _ => none
  | (k, v) :: l, s => if k = s then some v else lookupA l s

/-- Remove the first binding of a name from an association list. -/
def eraseA {α : Type} : List (String × α) → String → List (String × α)
  | [], _ => []
  | (k, v) :: l, s => if k = s then l else (k, v) :: eraseA l s

/-- Replace the binding of a name in place, or append it if absent. -/
def setA {α : Type} : List (String × α) → String → α → List (String × α)
  | [], s, v => [(s, v)]
  | (k, w) :: l, s, v => if k = s then (s, v) :: l else (k, w) :: setA l s v

/-- Index of the first occurrence of a string in a list, `none` when
absent (Python `list.index` raises `ValueError` there). -/
def indexOfQ : List String → String → Option Nat
  | [], _ => none
  | a :: l, s => if a = s then some 0 else (indexOfQ l s).map (· + 1)

/-! ### Scalar encoding -/

/-- Reduce an integer into the signed 32-bit range, as a numpy `int32`
cast does. -/
def wrap32 (n : ℤ) : ℤ := (n + 2 ^ 31) % 2 ^ 32 - 2 ^ 31

/-- Truncate a rational toward zero, as a numpy cast to integer does. -/
def truncQ (q : ℚ) : ℤ := Int.tdiv q.num (q.den : ℤ)

/-- Truncate a string to a fixed byte width; the space padding added on
disk is dropped again when the value is decoded, so only truncation is
observable. -/
def strFix (w : Nat) (s : String) : String := String.mk (s.toList.take w)

/-- Convert one element into a target on-disk type, as
`np.array(...).astype(write_type)` does.  `none` models the cast raising
(e.g. non-numeric text into an integer type). -/
def coerceElem : HType → HElem → Option HElem
  | .f64 _, .num q => some (.num q)
  | .f32 _, .num q => some (.num q)
  | .i32 _, .num q => some (.num ((wrap32 (truncQ q) : ℤ) : ℚ))
  | .s w, .str t => some (.str (strFix w t))
  | .i32 _, .str t => (t.toInt?).map fun k => .num ((wrap32 k : ℤ) : ℚ)
  | .f64 _, .str t => (t.toInt?).map fun k => .num ((k : ℤ) : ℚ)
  | .f32 _, .str t => (t.toInt?).map fun k => .num ((k : ℤ) : ℚ)
  | .s w, .num q => some (.str (strFix w (reprStr q)))

/-- Convert a whole array, failing if any element fails. -/
def coerceList (t : HType) : List HElem → Option (List HElem)
  | [] => some []
  | x :: l =>
      match coerceElem t x, coerceList t l with
      | some y, some m => some (y :: m)
      | _, _ => none

/-- Fill value of an element slot that was allocated but never written
(HDF5 reads such storage as zeros / empty text). -/
def fillElem : HType → HElem
  | .s _ => .str ""
  | _ => .num 0

/-! ### Path resolution -/

/-- Strip leading and trailing slashes: `/data`, `/data/` and `data` all
name the same one-level group, matching what `fid.get` resolves. -/
def trimSlash (s : String) : String :=
  String.mk (((s.toList.dropWhile (· = '/')).reverse.dropWhile (· = '/')).reverse)

/-- Resolve a parent path against the container, yielding the group when
it exists (`fid.get` returns `None` otherwise). -/
def getGroup (c : Container) (p : String) : Option HGroup :=
  lookupA c.groups (trimSlash p)

/-- Store an updated group back under its path. -/
def setGroup (c : Container) (p : String) (g : HGroup) : Container :=
  ⟨setA c.groups (trimSlash p) g⟩

/-! ### Private write helpers (`__oned_attribute_write`, `__dataset_write`) -/

/-- Embeds `__oned_attribute_write`: the attribute is created with the
requested type first, then the converted array is written into it.  When
the conversion raises, the created attribute is left holding unwritten
(fill) storage and the error propagates to the caller. -/
def oned_attribute_write (g : HGroup) (attribute_name : String) (write_type : HType)
    (attribute_data : List HElem) : HGroup × Option Err :=
  match coerceList write_type attribute_data with
  | some vals =>
      ({ g with attrs := g.attrs ++ [(attribute_name, ⟨write_type, vals⟩)] }, none)
  | none =>
      ({ g with attrs := g.attrs ++
          [(attribute_name, ⟨write_type, List.replicate attribute_data.length (fillElem write_type)⟩)] },
        some .valueError)

/-- Embeds `__dataset_write`: `h5py.h5d.create` raises when the name is
already taken; otherwise the dataset is created and the converted array
written into it (a failing conversion again leaves allocated, unwritten
storage, modelled by fill values). -/
def dataset_write (g : HGroup) (dataset_name : String) (write_type : HType)
    (shape : List Nat) (write_data : List HElem) : HGroup × Option Err :=
  if dataset_name ∈ g.dsets.map Prod.fst then
    (g, some .createError)
  else
    match coerceList write_type write_data with
    | some vals =>
        ({ g with dsets := g.dsets ++ [(dataset_name, ⟨write_type, shape, vals⟩)] }, none)
    | none =>
        ({ g with dsets := g.dsets ++
            [(dataset_name, ⟨write_type, shape, List.replicate write_data.length (fillElem write_type)⟩)] },
          some .valueError)

deriving instance DecidableEq for Except

/-! ### Validator -/

/-- Result of an operation that returns a boolean: the value or the
exception it raises, plus whether the container handle was released. -/
structure BoolResult where
  res : Except Err Bool
  released : Bool
deriving DecidableEq, Repr

/-- Embeds `is_rfml_hdf5`.  The file is opened BEFORE the protected
region, so a failing open raises to the caller; once the open succeeded,
the `return status` inside the cleanup block swallows any later error and
yields the boolean computed so far. -/
def is_rfml_hdf5 (file : File) : BoolResult :=
  match file with
  | none => ⟨.error .openError, true⟩
  | some fid =>
      let status := false
      let status :=
        match lookupA fid.groups "data" with
        | some gid =>
            let attrList := gid.attrs.map Prod.fst
            if "datafield_names" ∈ attrList ∧ "dimensions" ∈ attrList then true else status
        | none => status
      ⟨.ok status, true⟩

/-! ### Readers -/

/-- Result of an operation that returns an array. -/
structure RdResult where
  res : Except Err (List HElem)
  released : Bool
deriving DecidableEq, Repr

/-- Embeds `hdf5_read_attribute`.  There is no protected region: when the
parent resolves to `None` or the attribute is missing, the exception is
raised before `fid.close()` is ever reached and the handle stays open. -/
def hdf5_read_attribute (file : File) (parentpath attribute_name : String) : RdResult :=
  match file with
  | none => ⟨.error .openError, true⟩
  | some fid =>
      match getGroup fid parentpath with
      | none => ⟨.error (.attributeError "NoneType object has no attribute attrs"), false⟩
      | some parent =>
          match lookupA parent.attrs attribute_name with
          | none => ⟨.error .keyError, false⟩
          | some a => ⟨.ok a.avals, true⟩

/-- Embeds `hdf5_read_dataset`; same unprotected structure as
`hdf5_read_attribute`. -/
def hdf5_read_dataset (file : File) (parentpath dataset_name : String) : RdResult :=
  match file with
  | none => ⟨.error .openError, true⟩
  | some fid =>
      match getGroup fid parentpath with
      | none => ⟨.error .typeError, false⟩
      | some parent =>
          match lookupA parent.dsets dataset_name with
          | none => ⟨.error .keyError, false⟩
          | some d => ⟨.ok d.dvals, true⟩

/-- Decode one stored name as `x.decode(...)` does; names written by this
module are always text elements. -/
def decodeStr : HElem → String
  | .str s => s
  | .num _ => ""

/-- Embeds `hdf5_read_variables`: validates the file, then reads and
decodes `datafield_names`; a non-convention file raises `Exception`. -/
def hdf5_read_variables (file : File) : Except Err (List String) :=
  match (is_rfml_hdf5 file).res with
  | .error e => .error e
  | .ok false => .error (.exception "not an RFML hdf5 file")
  | .ok true =>
      match (hdf5_read_attribute file "/data/" "datafield_names").res with
      | .error e => .error e
      | .ok vals => .ok (vals.map decodeStr)

/-! ### Mutating attribute operations -/

/-- Result of a mutating operation: the on-disk file when the call
returns, the exception it raises to its caller (if any), the exceptions
its handlers merely printed, and whether the handle was released. -/
structure MutResult where
  file : File
  raised : Option Err
  printed : List Err
  released : Bool
deriving DecidableEq, Repr

/-- Embeds `hdf5_add_attribute`.  The whole body after the open sits in a
protected region whose handler PRINTS the error, so a missing parent and
a name collision alike never reach the caller; the cleanup block always
closes the handle. -/
def hdf5_add_attribute (file : File) (parentpath attribute_name : String)
    (attribute_type : HType) (attribute_data : List HElem) : MutResult :=
  match file with
  | none => ⟨none, some .openError, [], true⟩
  | some fid =>
      match getGroup fid parentpath with
      | none =>
          ⟨some fid, none, [.attributeError "NoneType object has no attribute attrs"], true⟩
      | some parent =>
          if attribute_name ∈ parent.attrs.map Prod.fst then
            ⟨some fid, none,
              [.attributeError "Attribute already exists! please use hdf5_replace_attribute method instead"],
              true⟩
          else
            match oned_attribute_write parent attribute_name attribute_type attribute_data with
            | (parent2, none) => ⟨some (setGroup fid parentpath parent2), none, [], true⟩
            | (parent2, some e) => ⟨some (setGroup fid parentpath parent2), none, [e], true⟩

/-- Embeds `hdf5_replace_attribute`.  `parent.attrs` is evaluated BEFORE
the protected region, so a missing parent raises to the caller with the
handle still open.  Inside the region, the old element type is read back,
the old attribute deleted, and a new one of the SAME type created with
the new data; the handler prints (not raises) both the missing-attribute
case and any conversion failure.  The space-reclamation pass after the
close leaves the logical content unchanged. -/
def hdf5_replace_attribute (file : File) (parentpath attribute_name : String)
    (attribute_data : List HElem) : MutResult :=
  match file with
  | none => ⟨none, some .openError, [], true⟩
  | some fid =>
      match getGroup fid parentpath with
      | none =>
          ⟨some fid, some (.attributeError "NoneType object has no attribute attrs"), [], false⟩
      | some parent =>
          match lookupA parent.attrs attribute_name with
          | some oldAttr =>
              match oned_attribute_write { parent with attrs := eraseA parent.attrs attribute_name }
                  attribute_name oldAttr.atype attribute_data with
              | (parent2, none) => ⟨some (setGroup fid parentpath parent2), none, [], true⟩
              | (parent2, some e) => ⟨some (setGroup fid parentpath parent2), none, [e], true⟩
          | none =>
              ⟨some fid, none,
                [.attributeError "Attribute does not exists! please use hdf5_add_attribute method instead"],
                true⟩

/-! ### Convention mutator -/

/-- Add one to a stored scalar; adding to a text element is a Python
`TypeError`. -/
def incElem : HElem → Option HElem
  | .num q => some (.num (q + 1))
  | .str _ => none

/-- Subtract one from a stored scalar. -/
def decElem : HElem → Option HElem
  | .num q => some (.num (q - 1))
  | .str _ => none

/-- Embeds `hdf5_add_dataset`.  The opening `assert` re-validates the
file (an open failure inside the assert propagates); then, inside a
protected region whose handler prints, the dataset is written, the name
list and `dimensions` are recomputed, the handle is closed and both
attributes are replaced through `hdf5_replace_attribute`. -/
def hdf5_add_dataset (file : File) (parentpath dataset_name : String)
    (data_type : HType) (shape : List Nat) (dataset_data : List HElem) : MutResult :=
  match (is_rfml_hdf5 file).res with
  | .error e => ⟨file, some e, [], true⟩
  | .ok false => ⟨file, some .assertionError, [], true⟩
  | .ok true =>
      match file with
      | none => ⟨none, some .openError, [], true⟩
      | some fid =>
          match getGroup fid parentpath with
          | none =>
              ⟨some fid, none, [.attributeError "NoneType object has no attribute id"], true⟩
          | some parent =>
              match dataset_write parent dataset_name data_type shape dataset_data with
              | (parent1, some e) => ⟨some (setGroup fid parentpath parent1), none, [e], true⟩
              | (parent1, none) =>
                  let fid1 := setGroup fid parentpath parent1
                  match hdf5_read_variables (some fid1) with
                  | .error e => ⟨some fid1, none, [e], true⟩
                  | .ok variable_names =>
                      let variable_names := variable_names ++ [dataset_name]
                      match (hdf5_read_attribute (some fid1) parentpath "dimensions").res with
                      | .error e => ⟨some fid1, none, [e], true⟩
                      | .ok dims =>
                          match dims.get? 3 with
                          | none => ⟨some fid1, none, [.indexError], true⟩
                          | some d3 =>
                              match incElem d3 with
                              | none => ⟨some fid1, none, [.typeError], true⟩
                              | some d3' =>
                                  let dims := dims.set 3 d3'
                                  let r1 := hdf5_replace_attribute (some fid1) parentpath
                                    "datafield_names" (variable_names.map HElem.str)
                                  match r1.raised with
                                  | some e => ⟨r1.file, none, r1.printed ++ [e], true⟩
                                  | none =>
                                      let r2 := hdf5_replace_attribute r1.file parentpath
                                        "dimensions" dims
                                      match r2.raised with
                                      | some e => ⟨r2.file, none, r1.printed ++ r2.printed ++ [e], true⟩
                                      | none => ⟨r2.file, none, r1.printed ++ r2.printed, true⟩

/-- Embeds `hdf5_remove_dataset`.  When the dataset is missing, building
the message of the intended `NameError` itself raises a `NameError`
(`datafield_name` is an undefined variable in the source); every error in
the body is caught by the handler and printed, never re-raised.  On the
main path the dataset is deleted, the updated name list and `dimensions`
are computed in memory, the handle is closed, space is reclaimed, and the
two attributes are replaced if the file still validates. -/
def hdf5_remove_dataset (file : File) (parentpath dataset_name : String) : MutResult :=
  match file with
  | none => ⟨none, some .openError, [], true⟩
  | some fid =>
      match getGroup fid parentpath with
      | none => ⟨some fid, none, [.typeError], true⟩
      | some parent =>
          if dataset_name ∈ parent.dsets.map Prod.fst then
            let parent1 := { parent with dsets := eraseA parent.dsets dataset_name }
            let fid1 := setGroup fid parentpath parent1
            match (is_rfml_hdf5 (some fid1)).res with
            | .error e => ⟨some fid1, none, [e], true⟩
            | .ok true =>
                match lookupA parent1.attrs "datafield_names" with
                | none => ⟨some fid1, none, [.keyError], true⟩
                | some namesAttr =>
                    match indexOfQ (namesAttr.avals.map decodeStr) dataset_name with
                    | none => ⟨some fid1, none, [.valueError], true⟩
                    | some idx =>
                        let newNames := namesAttr.avals.eraseIdx idx
                        match lookupA parent1.attrs "dimensions" with
                        | none => ⟨some fid1, none, [.keyError], true⟩
                        | some dimsAttr =>
                            match dimsAttr.avals.get? 3 with
                            | none => ⟨some fid1, none, [.indexError], true⟩
                            | some d3 =>
                                match decElem d3 with
                                | none => ⟨some fid1, none, [.typeError], true⟩
                                | some d3' =>
                                    let dims := dimsAttr.avals.set 3 d3'
                                    match (is_rfml_hdf5 (some fid1)).res with
                                    | .error e => ⟨some fid1, none, [e], true⟩
                                    | .ok false => ⟨some fid1, none, [], true⟩
                                    | .ok true =>
                                        let r1 := hdf5_replace_attribute (some fid1) parentpath
                                          "datafield_names" newNames
                                        match r1.raised with
                                        | some e => ⟨r1.file, none, r1.printed ++ [e], true⟩
                                        | none =>
                                            let r2 := hdf5_replace_attribute r1.file parentpath
                                              "dimensions" dims
                                            match r2.raised with
                                            | some e => ⟨r2.file, none, r1.printed ++ r2.printed ++ [e], true⟩
                                            | none => ⟨r2.file, none, r1.printed ++ r2.printed, true⟩
            | .ok false => ⟨some fid1, none, [], true⟩
          else
            ⟨some fid, none, [.nameError "name datafield_name is not defined"], true⟩

/-! ### Dataset overwrite and type query -/

/-- Result of `hdf5_overwrite_dataset`: no handler prints here; errors
raise, but the cleanup block always closes the handle. -/
structure OvResult where
  file : File
  raised : Option Err
  released : Bool
deriving DecidableEq, Repr

/-- Embeds `hdf5_overwrite_dataset`: `data_id[...] = new_dataset` writes
the new values converted into the EXISTING on-disk type; the element type
and shape of the dataset are untouched.  A missing group or dataset, a
size mismatch, or a failing conversion raises, and the cleanup block
releases the handle on every path. -/
def hdf5_overwrite_dataset (file : File) (parentpath dataset_name : String)
    (new_dataset : List HElem) : OvResult :=
  match file with
  | none => ⟨none, some .openError, true⟩
  | some fid =>
      match getGroup fid parentpath with
      | none => ⟨some fid, some .typeError, true⟩
      | some group =>
          match lookupA group.dsets dataset_name with
          | none => ⟨some fid, some .keyError, true⟩
          | some d =>
              if new_dataset.length = d.dvals.length then
                match coerceList d.dtype new_dataset with
                | some vals =>
                    ⟨some (setGroup fid parentpath
                      { group with dsets := setA group.dsets dataset_name ⟨d.dtype, d.shape, vals⟩ }),
                      none, true⟩
                | none => ⟨some fid, some .valueError, true⟩
              else ⟨some fid, some .typeError, true⟩

/-- Result of `hdf5_get_dataset_type`: the descriptor (or `None` after a
printed error), the printed errors, and the raised exception when the
open itself failed. -/
structure TyResult where
  res : Option HType
  raised : Option Err
  printed : List Err
  released : Bool
deriving DecidableEq, Repr

/-- Embeds `hdf5_get_dataset_type`: the open happens before the protected
region (so an open failure raises), lookup failures are printed and give
back `None`, and the cleanup block closes and returns the descriptor. -/
def hdf5_get_dataset_type (file : File) (group_path dataset_name : String) : TyResult :=
  match file with
  | none => ⟨none, some .openError, [], true⟩
  | some fid =>
      match getGroup fid group_path with
      | none => ⟨none, none, [.attributeError "NoneType object has no attribute id"], true⟩
      | some group =>
          match lookupA group.dsets dataset_name with
          | none => ⟨none, none, [.keyError], true⟩
          | some d => ⟨some d.dtype, none, [], true⟩

/-! ### Domain serializers -/

/-- Result of a writer: the freshly created file, the exception raised
(if any), and handle release.  Mode `w` truncates, so the writers take no
input file and return the container they produced. -/
structure WrResult where
  file : File
  raised : Option Err
  released : Bool
deriving DecidableEq, Repr

/-- Resolve a Python index: negative indices count from the end. -/
def pyIdx (len : Nat) (i : ℤ) : ℤ := if i < 0 then i + len else i

/-- Clamp a resolved Python slice endpoint into `[0, len]`. -/
def pyClamp (len : Nat) (i : ℤ) : Nat := (max 0 (min (pyIdx len i) len)).toNat

/-- Python slice `l[a:b]` with full negative-index and clamping
semantics. -/
def pySlice {α : Type} (a b : ℤ) (l : List α) : List α :=
  let lo := pyClamp l.length a
  let hi := pyClamp l.length b
  (l.drop lo).take (hi - lo)

/-- Elementwise `(u + v) / 2` of two numpy arrays; mismatched lengths are
a broadcast `ValueError`. -/
def npMid (a b : List ℚ) : Option (List ℚ) :=
  if a.length = b.length then some (List.zipWith (fun u v => (u + v) / 2) a b) else none

/-- Embeds `hdf5_NGA_config_write`.  Note two quirks carried over
verbatim from the source: all three midpoint arrays `xm`, `ym`, `zm` are
sliced with `nx` (the bound computed from `x`), and the slices run only
to `nx`, not `nx + 1`. -/
def hdf5_NGA_config_write (simname : String) (x y z : List ℚ) (icyl : ℤ) (iper : List ℤ)
    (mask : List HElem) (maskShape : List Nat) (endian : Endian) : WrResult :=
  let g0 : HGroup := ⟨[], []⟩
  match oned_attribute_write g0 "simulation_name" (.s 64) [.str simname] with
  | (g1, some e) => ⟨some ⟨[("data", g1)]⟩, some e, true⟩
  | (g1, none) =>
      let itype : HType := if endian = .big then .i32 .big else .i32 .little
      let nx : ℤ := (x.length : ℤ) - 1
      let ny : ℤ := (y.length : ℤ) - 1
      let nz : ℤ := (z.length : ℤ) - 1
      match iper.get? 0, iper.get? 1, iper.get? 2 with
      | some p0, some p1, some p2 =>
          let parameters := [icyl, p0, p1, p2, nx, ny, nz].map fun k => HElem.num (k : ℚ)
          match oned_attribute_write g1 "parameters" itype parameters with
          | (g2, some e) => ⟨some ⟨[("data", g2)]⟩, some e, true⟩
          | (g2, none) =>
              match dataset_write g2 "mask" itype maskShape mask with
              | (g3, some e) => ⟨some ⟨[("data", g3)]⟩, some e, true⟩
              | (g3, none) =>
                  let ftype : HType := if endian = .big then .f64 .big else .f64 .little
                  match dataset_write g3 "x" ftype [x.length] (x.map .num) with
                  | (g4, some e) => ⟨some ⟨[("data", g4)]⟩, some e, true⟩
                  | (g4, none) =>
                      match dataset_write g4 "y" ftype [y.length] (y.map .num) with
                      | (g5, some e) => ⟨some ⟨[("data", g5)]⟩, some e, true⟩
                      | (g5, none) =>
                          match dataset_write g5 "z" ftype [z.length] (z.map .num) with
                          | (g6, some e) => ⟨some ⟨[("data", g6)]⟩, some e, true⟩
                          | (g6, none) =>
                              match npMid (pySlice 1 nx x) (pySlice 0 (nx - 1) x) with
                              | none => ⟨some ⟨[("data", g6)]⟩, some .valueError, true⟩
                              | some xm =>
                                  match dataset_write g6 "xm" ftype [xm.length] (xm.map .num) with
                                  | (g7, some e) => ⟨some ⟨[("data", g7)]⟩, some e, true⟩
                                  | (g7, none) =>
                                      match npMid (pySlice 1 nx y) (pySlice 0 (nx - 1) y) with
                                      | none => ⟨some ⟨[("data", g7)]⟩, some .valueError, true⟩
                                      | some ym =>
                                          match dataset_write g7 "ym" ftype [ym.length] (ym.map .num) with
                                          | (g8, some e) => ⟨some ⟨[("data", g8)]⟩, some e, true⟩
                                          | (g8, none) =>
                                              match npMid (pySlice 1 nx z) (pySlice 0 (nx - 1) z) with
                                              | none => ⟨some ⟨[("data", g8)]⟩, some .valueError, true⟩
                                              | some zm =>
                                                  match dataset_write g8 "zm" ftype [zm.length] (zm.map .num) with
                                                  | (g9, some e) => ⟨some ⟨[("data", g9)]⟩, some e, true⟩
                                                  | (g9, none) => ⟨some ⟨[("data", g9)]⟩, none, true⟩
      | _, _, _ => ⟨some ⟨[("data", g1)]⟩, some .indexError, true⟩

/-- Write each field dataset in order with the one shared write type,
stopping at the first raised error (which propagates out of the loop). -/
def writeFields (g : HGroup) (write_type : HType) :
    List (String × List Nat × List HElem) → HGroup × Option Err
  | [] => (g, none)
  | (varname, shape, d) :: rest =>
      match dataset_write g varname write_type shape d with
      | (g1, none) => writeFields g1 write_type rest
      | (g1, some e) => (g1, some e)

/-- Embeds `hdf5_NGA_data_write`.  The snapshot dictionary is modelled as
an ordered list of `(name, shape, values)` triples (dictionary keys are
unique and iterate in insertion order).  The write type in scope when the
field loop runs is the float64 type chosen for `time_variables`, so every
field dataset is written with exactly that type. -/
def hdf5_NGA_data_write (data : List (String × List Nat × List HElem)) (t0 dt : ℚ)
    (endian : Endian) : WrResult :=
  let g0 : HGroup := ⟨[], []⟩
  let datafield_names := data.map Prod.fst
  match oned_attribute_write g0 "datafield_names" (.s 8) (datafield_names.map .str) with
  | (g1, some e) => ⟨some ⟨[("data", g1)]⟩, some e, true⟩
  | (g1, none) =>
      let itype : HType := if endian = .big then .i32 .big else .i32 .little
      let nvars := data.length
      match data.get? 0 with
      | none => ⟨some ⟨[("data", g1)]⟩, some .indexError, true⟩
      | some (_, shape0, _) =>
          let dimensions := (shape0.map fun n => HElem.num (n : ℚ)) ++ [HElem.num (nvars : ℚ)]
          match oned_attribute_write g1 "dimensions" itype dimensions with
          | (g2, some e) => ⟨some ⟨[("data", g2)]⟩, some e, true⟩
          | (g2, none) =>
              let ftype : HType := if endian = .big then .f64 .big else .f64 .little
              match oned_attribute_write g2 "time_variables" ftype [.num dt, .num t0] with
              | (g3, some e) => ⟨some ⟨[("data", g3)]⟩, some e, true⟩
              | (g3, none) =>
                  match writeFields g3 ftype data with
                  | (g4, none) => ⟨some ⟨[("data", g4)]⟩, none, true⟩
                  | (g4, some e) => ⟨some ⟨[("data", g4)]⟩, some e, true⟩

/-! ### Spec-side reference definitions (for refinement statements) -/

/-- The validator condition as the spec words it: a group named `data`
directly under the root whose attribute set contains both
`datafield_names` and `dimensions`. -/
def isConventionSpec (c : Container) : Bool :=
  match lookupA c.groups "data" with
  | some g =>
      decide ("datafield_names" ∈ g.attrs.map Prod.fst) &&
      decide ("dimensions" ∈ g.attrs.map Prod.fst)
  | none => false

/-- Pairwise averages of adjacent entries, as the spec describes the
midpoint arrays: one fewer element than the coordinate array. -/
def midpointsSpec (l : List ℚ) : List ℚ :=
  List.zipWith (fun a b => (a + b) / 2) l l.tail

/-- Evenly spaced grid, the embedding of `numpy.linspace` for the test
scenarios. -/
def linspaceQ (a b : ℚ) (n : Nat) : List ℚ :=
  (List.range n).map fun i => a + (b - a) * i / (n - 1)

/-- Iterate `hdf5_replace_attribute` over a list of replacement values,
threading the file state (the shape of "any number of replace calls"). -/
def replaceMany (file : File) (parentpath attribute_name : String) :
    List (List HElem) → File
  | [] => file
  | d :: ds =>
      replaceMany (hdf5_replace_attribute file parentpath attribute_name d).file
        parentpath attribute_name ds

/-- A convention file in the layout this module itself produces: a single
group `data` whose first two attributes are `datafield_names` (8-byte
text) and `dimensions` (int32), followed by any further attributes and
any datasets. -/
def mkData (names : List String) (en : Endian) (dims : List HElem)
    (extra : List (String × HAttr)) (dsets : List (String × HDataset)) : Container :=
  ⟨[("data",
      ⟨("datafield_names", ⟨.s 8, names.map .str⟩) ::
        ("dimensions", ⟨.i32 en, dims⟩) :: extra, dsets⟩)]⟩

/-- Signed 32-bit range membership for the bookkeeping integers. -/
def inI32 (k : ℤ) : Prop := -(2 ^ 31) ≤ k ∧ k < 2 ^ 31

instance decInI32 (k : ℤ) : Decidable (inI32 k) := by
  unfold inI32
  infer_instance

/-! ### Concrete scenario inputs -/

/-- A flat array of zeros. -/
def zerosN (n : Nat) : List HElem := List.replicate n (.num 0)

/-- The time step `2e-7` of the snapshot scenario, given in normalized
form (numerator and denominator) so that the kernel can evaluate it. -/
def qdt : ℚ := ⟨1, 5000000, by decide, by decide⟩

/-- The one-field snapshot of the test scenarios, as written by
`hdf5_NGA_data_write` with field `C = zeros((10,10,10))`. -/
def snapFile : File :=
  (hdf5_NGA_data_write [("C", [10, 10, 10], zerosN 1000)] 0 qdt .little).file

/-- A small one-field convention container used where a statement is
settled by explicit evaluation. -/
def tinySnap : Container :=
  mkData ["C"] .little [.num 2, .num 2, .num 2, .num 1]
    [("time_variables", ⟨.f64 .little, [.num qdt, .num 0]⟩)]
    [("C", ⟨.f64 .little, [2, 2, 2], zerosN 8⟩)]

/-- Adding a dataset whose name exceeds the 8-byte name width of the
convention. -/
def addLongR : MutResult :=
  hdf5_add_dataset (some tinySnap) "/data" "verylongname" (.f64 .little) [2, 2, 2] (zerosN 8)

/-- The config-writer scenario `x = linspace(-1,1,6)` (with the `y` and
`z` grids of the repository test). -/
def cfgX : List ℚ := linspaceQ (-1) 1 6
def cfgY : List ℚ := linspaceQ (-2) 2 11
def cfgZ : List ℚ := linspaceQ (-4) 4 21
def cfgR : WrResult :=
  hdf5_NGA_config_write "isotropic" cfgX cfgY cfgZ 0 [1, 1, 1]
    (zerosN 50) [5, 10] .little

/-- Invariant carried through repeated attribute replacement: the file
still holds a group at the path whose attribute of the given name exists
and has the original element type. -/
def AttrTypeInv (pp nm : String) (t : HType) (f : File) : Prop :=
  ∃ c g a, f = some c ∧ getGroup c pp = some g ∧ (g.attrs.map Prod.fst).Nodup ∧
    lookupA g.attrs nm = some a ∧ a.atype = t

/-- A one-attribute container used to instantiate attribute statements on
concrete data. -/
def attrG : HGroup := ⟨[("a", ⟨.i32 .little, [.num 5]⟩)], []⟩
def attrC : Container := ⟨[("g", attrG)]⟩

/-- The pieces of the 10×10×10 one-field snapshot in `mkData` form. -/
def snapNames : List String := ["C"]
def snapExtra : List (String × HAttr) :=
  [("time_variables", ⟨.f64 .little, [.num qdt, .num 0]⟩)]
def snapDsets : List (String × HDataset) :=
  [("C", ⟨.f64 .little, [10, 10, 10], zerosN 1000⟩)]

/-- The small snapshot in int-cast form, used for the long-name
round-trip counterexample (kept in cast form so the kernel can evaluate
the readbacks). -/
def cexDims : List HElem :=
  [.num ((2 : ℤ) : ℚ), .num ((2 : ℤ) : ℚ), .num ((2 : ℤ) : ℚ), .num ((1 : ℤ) : ℚ)]
def cexSnap : Container :=
  mkData ["C"] .little cexDims [] [("C", ⟨.f64 .little, [2, 2, 2], zerosN 8⟩)]
def cexAdd : MutResult :=
  hdf5_add_dataset (some cexSnap) "/data" "verylongname" (.f64 .little) [2, 2, 2] (zerosN 8)
def cexRem : MutResult :=
  hdf5_remove_dataset cexAdd.file "/data" "verylongname"

/-- A container holding one float64 dataset of two values, for the
overwrite scenario. -/
def ovG : HGroup := ⟨[], [("C", ⟨.f64 .little, [2], [.num 1, .num 2]⟩)]⟩
def ovC : Container := ⟨[("data", ovG)]⟩

/-! ## Supporting lemmas -/

theorem lookupA_setA_self {α : Type} (l : List (String × α)) (k : String) (v : α) :
    lookupA (setA l k v) k = some v := by
  induction l with
  | nil => simp [setA, lookupA]
  | cons hd tl ih =>
      obtain ⟨k', v'⟩ := hd
      by_cases h : k' = k
      · simp [setA, lookupA, h]
      · simp [setA, lookupA, h, ih]

theorem lookupA_append_left {α : Type} {l1 : List (String × α)} (l2 : List (String × α))
    {k : String} {v : α} (h : lookupA l1 k = some v) : lookupA (l1 ++ l2) k = some v := by
  induction l1 with
  | nil => simp [lookupA] at h
  | cons hd tl ih =>
      obtain ⟨k', v'⟩ := hd
      by_cases hk : k' = k
      · simp [lookupA, hk] at h ⊢; exact h
      · simp [lookupA, hk] at h ⊢; exact ih h

theorem lookupA_append_right {α : Type} {l1 : List (String × α)} (l2 : List (String × α))
    {k : String} (h : lookupA l1 k = none) : lookupA (l1 ++ l2) k = lookupA l2 k := by
  induction l1 with
  | nil => simp
  | cons hd tl ih =>
      obtain ⟨k', v'⟩ := hd
      by_cases hk : k' = k
      · simp [lookupA, hk] at h
      · simp [lookupA, hk] at h ⊢; exact ih h

theorem lookupA_eraseA_ne {α : Type} (l : List (String × α)) {k k' : String} (h : k' ≠ k) :
    lookupA (eraseA l k) k' = lookupA l k' := by
  induction l with
  | nil => rfl
  | cons hd tl ih =>
      obtain ⟨k0, v0⟩ := hd
      by_cases hk : k0 = k
      · subst hk
        have he : eraseA ((k0, v0) :: tl) k0 = tl := by simp [eraseA]
        rw [he]
        simp only [lookupA]
        rw [if_neg fun hc : k0 = k' => h hc.symm]
      · simp only [eraseA, if_neg hk, lookupA]
        by_cases h0 : k0 = k'
        · simp [h0]
        · simp [h0, ih]

theorem lookupA_eq_none_of_not_mem {α : Type} {l : List (String × α)} {k : String}
    (h : k ∉ l.map Prod.fst) : lookupA l k = none := by
  induction l with
  | nil => rfl
  | cons hd tl ih =>
      obtain ⟨k0, v0⟩ := hd
      rw [List.map_cons] at h
      have h1 : ¬k = k0 := fun hc => h (by rw [hc]; exact List.mem_cons_self _ _)
      have h2 : k ∉ tl.map Prod.fst := fun hc => h (List.mem_cons_of_mem _ hc)
      simp only [lookupA]
      rw [if_neg fun hc : k0 = k => h1 hc.symm]
      exact ih h2

theorem keys_eraseA_subset {α : Type} (l : List (String × α)) (k : String) :
    ∀ x, x ∈ (eraseA l k).map Prod.fst → x ∈ l.map Prod.fst := by
  induction l with
  | nil => intro x hx; simp [eraseA] at hx
  | cons hd tl ih =>
      obtain ⟨k0, v0⟩ := hd
      intro x hx
      by_cases hk : k0 = k
      · rw [List.map_cons]
        simp only [eraseA, if_pos hk] at hx
        exact List.mem_cons_of_mem _ hx
      · simp only [eraseA, if_neg hk, List.map_cons] at hx ⊢
        rcases List.mem_cons.mp hx with hx | hx
        · exact List.mem_cons.mpr (Or.inl hx)
        · exact List.mem_cons.mpr (Or.inr (ih x hx))

theorem not_mem_keys_eraseA_of_nodup {α : Type} {l : List (String × α)} {k : String}
    (h : (l.map Prod.fst).Nodup) : k ∉ (eraseA l k).map Prod.fst := by
  induction l with
  | nil => simp [eraseA]
  | cons hd tl ih =>
      obtain ⟨k0, v0⟩ := hd
      rw [List.map_cons, List.nodup_cons] at h
      by_cases hk : k0 = k
      · subst hk
        simpa [eraseA] using h.1
      · simp only [eraseA, if_neg hk, List.map_cons]
        intro hc
        rcases List.mem_cons.mp hc with hc | hc
        · exact hk hc.symm
        · exact ih h.2 hc

theorem keys_eraseA_nodup {α : Type} {l : List (String × α)} (k : String)
    (h : (l.map Prod.fst).Nodup) : ((eraseA l k).map Prod.fst).Nodup := by
  induction l with
  | nil => simp [eraseA]
  | cons hd tl ih =>
      obtain ⟨k0, v0⟩ := hd
      rw [List.map_cons, List.nodup_cons] at h
      by_cases hk : k0 = k
      · simpa [eraseA, hk] using h.2
      · simp only [eraseA, if_neg hk, List.map_cons]
        rw [List.nodup_cons]
        exact ⟨fun hc => h.1 (keys_eraseA_subset tl k _ hc), ih h.2⟩

theorem lookupA_eraseA_self_of_nodup {α : Type} {l : List (String × α)} {k : String}
    (h : (l.map Prod.fst).Nodup) : lookupA (eraseA l k) k = none :=
  lookupA_eq_none_of_not_mem (not_mem_keys_eraseA_of_nodup h)

theorem getGroup_setGroup_self (c : Container) (p : String) (g : HGroup) :
    getGroup (setGroup c p g) p = some g := by
  simp [getGroup, setGroup, lookupA_setA_self]

theorem strFix_of_le {s : String} {w : Nat} (h : s.length ≤ w) : strFix w s = s := by
  unfold strFix
  rw [show s.toList = s.data from rfl, List.take_of_length_le h]

theorem truncQ_intCast (k : ℤ) : truncQ ((k : ℤ) : ℚ) = k := by
  unfold truncQ
  rw [Rat.num_intCast, Rat.den_intCast]
  exact Int.tdiv_one k

theorem wrap32_small {k : ℤ} (h1 : -(2 ^ 31) ≤ k) (h2 : k < 2 ^ 31) : wrap32 k = k := by
  unfold wrap32
  have h0 : (0 : ℤ) ≤ k + 2 ^ 31 := by linarith
  have h3 : k + 2 ^ 31 < 2 ^ 32 := by norm_num at h2 ⊢; linarith
  rw [Int.emod_eq_of_lt h0 h3]
  ring

theorem coerceElem_i32_int (en : Endian) {k : ℤ} (h : inI32 k) :
    coerceElem (.i32 en) (.num ((k : ℤ) : ℚ)) = some (.num ((k : ℤ) : ℚ)) := by
  simp [coerceElem, truncQ_intCast, wrap32_small h.1 h.2]

theorem coerceList_i32_map_int (en : Endian) {ks : List ℤ} (h : ∀ k ∈ ks, inI32 k) :
    coerceList (.i32 en) (ks.map fun k => HElem.num ((k : ℤ) : ℚ)) =
      some (ks.map fun k => HElem.num ((k : ℤ) : ℚ)) := by
  induction ks with
  | nil => rfl
  | cons a t ih =>
      rw [List.map_cons]
      simp only [coerceList]
      rw [coerceElem_i32_int en (h a (List.mem_cons_self _ _)),
        ih fun k hk => h k (List.mem_cons_of_mem _ hk)]

theorem coerceList_s_map_str (w : Nat) {ns : List String} (h : ∀ s ∈ ns, s.length ≤ w) :
    coerceList (.s w) (ns.map .str) = some (ns.map .str) := by
  induction ns with
  | nil => rfl
  | cons a t ih =>
      rw [List.map_cons]
      simp only [coerceList, coerceElem]
      rw [strFix_of_le (h a (List.mem_cons_self _ _)),
        ih fun s hs => h s (List.mem_cons_of_mem _ hs)]

theorem coerceList_s_map_str_total (w : Nat) (ns : List String) :
    coerceList (.s w) (ns.map .str) = some (ns.map fun s => HElem.str (strFix w s)) := by
  induction ns with
  | nil => rfl
  | cons a t ih =>
      rw [List.map_cons]
      simp only [coerceList, coerceElem]
      rw [ih]
      rfl

theorem coerceList_f64_allnum (en : Endian) {l : List HElem}
    (h : ∀ x ∈ l, ∃ q, x = HElem.num q) : coerceList (.f64 en) l = some l := by
  induction l with
  | nil => rfl
  | cons a t ih =>
      obtain ⟨q, hq⟩ := h a (List.mem_cons_self _ _)
      subst hq
      simp only [coerceList, coerceElem]
      rw [ih fun x hx => h x (List.mem_cons_of_mem _ hx)]

theorem coerceList_i32_allnum (en : Endian) {l : List HElem}
    (h : ∀ x ∈ l, ∃ q, x = HElem.num q) : ∃ m, coerceList (.i32 en) l = some m := by
  induction l with
  | nil => exact ⟨[], rfl⟩
  | cons a t ih =>
      obtain ⟨q, hq⟩ := h a (List.mem_cons_self _ _)
      subst hq
      obtain ⟨m, hm⟩ := ih fun x hx => h x (List.mem_cons_of_mem _ hx)
      refine ⟨.num ((wrap32 (truncQ q) : ℤ) : ℚ) :: m, ?_⟩
      simp only [coerceList, coerceElem]
      rw [hm]

theorem map_decodeStr_map_str (ns : List String) :
    (ns.map HElem.str).map decodeStr = ns := by
  induction ns with
  | nil => rfl
  | cons a t ih => simp [decodeStr, ih]

theorem indexOfQ_append_self {ns : List String} {nm : String} (h : nm ∉ ns) :
    indexOfQ (ns ++ [nm]) nm = some ns.length := by
  induction ns with
  | nil => simp [indexOfQ]
  | cons a t ih =>
      rw [List.mem_cons] at h
      push_neg at h
      simp only [List.cons_append, indexOfQ]
      rw [if_neg fun hc : a = nm => h.1 hc.symm,
        show t.append [nm] = t ++ [nm] from rfl, ih h.2]
      rfl

theorem eraseIdx_append_length {α : Type} (l : List α) (x : α) :
    (l ++ [x]).eraseIdx l.length = l := by
  induction l with
  | nil => rfl
  | cons a t ih => simp [List.eraseIdx, ih]

theorem replace_attribute_file (c : Container) (pp nm : String) {g : HGroup} {a : HAttr}
    (d : List HElem) (h1 : getGroup c pp = some g) (h2 : lookupA g.attrs nm = some a) :
    hdf5_replace_attribute (some c) pp nm d =
      ⟨some (setGroup c pp { g with attrs := eraseA g.attrs nm ++
          [(nm, ⟨a.atype, (coerceList a.atype d).getD (List.replicate d.length (fillElem a.atype))⟩)] }),
        none,
        (match coerceList a.atype d with | some _ => [] | none => [Err.valueError]),
        true⟩ := by
  unfold hdf5_replace_attribute
  simp only [h1, h2]
  unfold oned_attribute_write
  cases hc : coerceList a.atype d <;> simp [hc]

theorem replaced_keys_nodup {g : HGroup} (nm : String) (v : HAttr)
    (hnd : (g.attrs.map Prod.fst).Nodup) :
    (((eraseA g.attrs nm ++ [(nm, v)]).map Prod.fst).Nodup) := by
  rw [List.map_append]
  refine List.Nodup.append (keys_eraseA_nodup nm hnd) (by simp) ?_
  intro x hx hx2
  simp at hx2
  subst hx2
  exact not_mem_keys_eraseA_of_nodup hnd hx

theorem lookupA_replaced_self {g : HGroup} (nm : String) (v : HAttr)
    (hnd : (g.attrs.map Prod.fst).Nodup) :
    lookupA (eraseA g.attrs nm ++ [(nm, v)]) nm = some v := by
  rw [lookupA_append_right _ (lookupA_eraseA_self_of_nodup hnd)]
  simp [lookupA]

theorem replace_attribute_preserves_inv (pp nm : String) (t : HType) (f : File)
    (h : AttrTypeInv pp nm t f) (d : List HElem) :
    AttrTypeInv pp nm t (hdf5_replace_attribute f pp nm d).file := by
  obtain ⟨c, g, a, hf, h1, hnd, h2, ht⟩ := h
  subst hf
  rw [replace_attribute_file c pp nm d h1 h2]
  exact ⟨_, _, _, rfl, getGroup_setGroup_self .., replaced_keys_nodup nm _ hnd,
    lookupA_replaced_self nm _ hnd, ht⟩

theorem replaceMany_preserves_inv (pp nm : String) (t : HType) :
    ∀ (ds : List (List HElem)) (f : File), AttrTypeInv pp nm t f →
      AttrTypeInv pp nm t (replaceMany f pp nm ds) := by
  intro ds
  induction ds with
  | nil => intro f h; exact h
  | cons d rest ih =>
      intro f h
      exact ih _ (replace_attribute_preserves_inv pp nm t f h d)

theorem trimSlash_data1 : trimSlash "/data" = "data" := by decide

theorem trimSlash_data2 : trimSlash "/data/" = "data" := by decide

theorem getGroup_single (g : HGroup) {p : String} (hp : trimSlash p = "data") :
    getGroup (⟨[("data", g)]⟩ : Container) p = some g := by
  unfold getGroup
  rw [hp]
  simp [lookupA]

theorem setGroup_single (g g' : HGroup) {p : String} (hp : trimSlash p = "data") :
    setGroup (⟨[("data", g)]⟩ : Container) p g' = ⟨[("data", g')]⟩ := by
  unfold setGroup
  rw [hp]
  simp [setA]

theorem is_rfml_single (na da : HAttr) (extra : List (String × HAttr))
    (ds : List (String × HDataset)) :
    is_rfml_hdf5 (some ⟨[("data",
        ⟨("datafield_names", na) :: ("dimensions", da) :: extra, ds⟩)]⟩) =
      ⟨.ok true, true⟩ := by
  unfold is_rfml_hdf5
  simp [lookupA]

theorem is_rfml_mem (attrs : List (String × HAttr)) (ds : List (String × HDataset))
    (h1 : "datafield_names" ∈ attrs.map Prod.fst)
    (h2 : "dimensions" ∈ attrs.map Prod.fst) :
    is_rfml_hdf5 (some ⟨[("data", ⟨attrs, ds⟩)]⟩) = ⟨.ok true, true⟩ := by
  unfold is_rfml_hdf5
  simp [lookupA, h1, h2]

theorem read_attribute_single (g : HGroup) {p nm : String} {a : HAttr}
    (hp : trimSlash p = "data") (h : lookupA g.attrs nm = some a) :
    hdf5_read_attribute (some ⟨[("data", g)]⟩) p nm = ⟨.ok a.avals, true⟩ := by
  unfold hdf5_read_attribute
  dsimp only
  rw [getGroup_single _ hp]
  dsimp only
  rw [h]

theorem read_dataset_single (g : HGroup) {p nm : String} {d : HDataset}
    (hp : trimSlash p = "data") (h : lookupA g.dsets nm = some d) :
    hdf5_read_dataset (some ⟨[("data", g)]⟩) p nm = ⟨.ok d.dvals, true⟩ := by
  unfold hdf5_read_dataset
  dsimp only
  rw [getGroup_single _ hp]
  dsimp only
  rw [h]

theorem read_variables_of (names : List String) (g : HGroup) {a : HAttr}
    (h1 : "datafield_names" ∈ g.attrs.map Prod.fst)
    (h2 : "dimensions" ∈ g.attrs.map Prod.fst)
    (h : lookupA g.attrs "datafield_names" = some a)
    (ha : a.avals = names.map .str) :
    hdf5_read_variables (some ⟨[("data", g)]⟩) = .ok names := by
  unfold hdf5_read_variables
  rw [show (⟨[("data", g)]⟩ : Container) = ⟨[("data", ⟨g.attrs, g.dsets⟩)]⟩ by cases g; rfl]
  rw [is_rfml_mem g.attrs g.dsets h1 h2]
  dsimp only
  rw [read_attribute_single ⟨g.attrs, g.dsets⟩ trimSlash_data2 h]
  dsimp only
  rw [ha]
  have hcomp : (decodeStr ∘ HElem.str) = id := funext fun s => rfl
  rw [List.map_map, hcomp, List.map_id]

theorem read_variables_single (names : List String) (da : HAttr)
    (extra : List (String × HAttr)) (ds : List (String × HDataset)) :
    hdf5_read_variables (some ⟨[("data",
        ⟨("datafield_names", ⟨.s 8, names.map .str⟩) :: ("dimensions", da) :: extra, ds⟩)]⟩) =
      .ok names := by
  have hl : lookupA (("datafield_names", (⟨.s 8, names.map .str⟩ : HAttr)) ::
      ("dimensions", da) :: extra) "datafield_names" = some ⟨.s 8, names.map .str⟩ := by
    simp [lookupA]
  exact read_variables_of names ⟨("datafield_names", ⟨.s 8, names.map .str⟩) ::
    ("dimensions", da) :: extra, ds⟩ (by simp) (by simp) hl rfl

theorem coerceList_i32_four (en : Endian) {a b c d : ℤ}
    (ha : inI32 a) (hb : inI32 b) (hc : inI32 c) (hd : inI32 d) :
    coerceList (.i32 en) [.num (a : ℚ), .num (b : ℚ), .num (c : ℚ), .num (d : ℚ)] =
      some [.num (a : ℚ), .num (b : ℚ), .num (c : ℚ), .num (d : ℚ)] := by
  simp only [coerceList, coerceElem_i32_int en ha, coerceElem_i32_int en hb,
    coerceElem_i32_int en hc, coerceElem_i32_int en hd]

theorem eraseA_append_of_not_mem {α : Type} {l1 : List (String × α)} (l2 : List (String × α))
    {k : String} (h : k ∉ l1.map Prod.fst) : eraseA (l1 ++ l2) k = l1 ++ eraseA l2 k := by
  induction l1 with
  | nil => rfl
  | cons hd tl ih =>
      obtain ⟨k0, v0⟩ := hd
      rw [List.map_cons] at h
      have h1 : ¬k0 = k := fun hc => h (by rw [hc]; exact List.mem_cons_self _ _)
      have h2 : k ∉ tl.map Prod.fst := fun hc => h (List.mem_cons_of_mem _ hc)
      simp only [List.cons_append, eraseA, if_neg h1]
      rw [show tl.append l2 = tl ++ l2 from rfl, ih h2]

theorem eraseA_append_single {α : Type} {l1 : List (String × α)} {k : String} (v : α)
    (h : k ∉ l1.map Prod.fst) : eraseA (l1 ++ [(k, v)]) k = l1 := by
  rw [eraseA_append_of_not_mem _ h]
  simp [eraseA]

theorem add_dataset_file (names : List String) (en : Endian) (k0 k1 k2 k3 : ℤ)
    (extra : List (String × HAttr)) (dsets : List (String × HDataset))
    (nm : String) (dt : HType) (shape : List Nat) (vals wvals : List HElem)
    (hn8 : ∀ s ∈ names, s.length ≤ 8)
    (hfresh : nm ∉ dsets.map Prod.fst)
    (hnm8 : nm.length ≤ 8)
    (hk0 : inI32 k0) (hk1 : inI32 k1) (hk2 : inI32 k2) (hk3 : inI32 k3)
    (hk3p : k3 + 1 < 2 ^ 31)
    (hvals : coerceList dt vals = some wvals) :
    hdf5_add_dataset (some (mkData names en
        [.num (k0 : ℚ), .num (k1 : ℚ), .num (k2 : ℚ), .num (k3 : ℚ)] extra dsets))
      "/data" nm dt shape vals =
    ⟨some ⟨[("data", ⟨(extra ++ [("datafield_names", ⟨.s 8, (names ++ [nm]).map .str⟩)]) ++
        [("dimensions", ⟨.i32 en, [.num (k0 : ℚ), .num (k1 : ℚ), .num (k2 : ℚ), .num ((k3 + 1 : ℤ) : ℚ)]⟩)],
        dsets ++ [(nm, ⟨dt, shape, wvals⟩)]⟩)]⟩, none, [], true⟩ := by
  unfold mkData hdf5_add_dataset
  rw [is_rfml_single]
  dsimp only
  rw [getGroup_single _ trimSlash_data1]
  dsimp only
  unfold dataset_write
  dsimp only
  rw [if_neg hfresh, hvals]
  dsimp only
  rw [setGroup_single _ _ trimSlash_data1]
  rw [read_variables_single]
  dsimp only
  unfold hdf5_read_attribute
  dsimp only
  rw [getGroup_single _ trimSlash_data1]
  dsimp only
  simp only [lookupA, String.reduceEq, reduceIte]
  simp only [List.get?, incElem]
  have h8 : ∀ s ∈ names ++ [nm], s.length ≤ 8 := by
    intro s hs
    rcases List.mem_append.mp hs with hs | hs
    · exact hn8 s hs
    · rw [List.mem_singleton.mp hs]
      exact hnm8
  rw [replace_attribute_file _ "/data" "datafield_names"
    (List.map HElem.str (names ++ [nm])) (getGroup_single _ trimSlash_data1)
    (by simp [lookupA] :
      lookupA (("datafield_names", (⟨.s 8, names.map .str⟩ : HAttr)) ::
        ("dimensions", (⟨.i32 en, [.num (k0 : ℚ), .num (k1 : ℚ), .num (k2 : ℚ), .num (k3 : ℚ)]⟩ : HAttr)) ::
        extra) "datafield_names" = some ⟨.s 8, names.map .str⟩)]
  rw [coerceList_s_map_str 8 h8]
  dsimp only
  simp only [Option.getD_some, eraseA, String.reduceEq, reduceIte, List.set, List.cons_append]
  rw [setGroup_single _ _ trimSlash_data1]
  have hc3 : ((k3 : ℚ) + 1) = (((k3 + 1 : ℤ) : ℚ)) := by push_cast; ring
  rw [hc3]
  rw [replace_attribute_file _ "/data" "dimensions"
    [HElem.num (k0 : ℚ), HElem.num (k1 : ℚ), HElem.num (k2 : ℚ), HElem.num ((k3 + 1 : ℤ) : ℚ)]
    (getGroup_single _ trimSlash_data1)
    (by simp [lookupA] :
      lookupA (("dimensions", (⟨.i32 en, [.num (k0 : ℚ), .num (k1 : ℚ), .num (k2 : ℚ), .num (k3 : ℚ)]⟩ : HAttr)) ::
        (extra ++ [("datafield_names", (⟨.s 8, (names ++ [nm]).map .str⟩ : HAttr))]))
        "dimensions" =
        some ⟨.i32 en, [.num (k0 : ℚ), .num (k1 : ℚ), .num (k2 : ℚ), .num (k3 : ℚ)]⟩)]
  have hk3' : inI32 (k3 + 1) := ⟨by have := hk3.1; linarith, hk3p⟩
  rw [coerceList_i32_four en hk0 hk1 hk2 hk3']
  dsimp only
  simp only [Option.getD_some, eraseA, String.reduceEq, reduceIte, List.cons_append]
  rw [setGroup_single _ _ trimSlash_data1]
  simp [List.append_assoc]

theorem remove_dataset_file (names : List String) (en : Endian) (a0 a1 a2 a3 : ℤ)
    (extra : List (String × HAttr)) (dsets : List (String × HDataset))
    (nm : String) (dsX : HDataset)
    (hx1 : "datafield_names" ∉ extra.map Prod.fst)
    (hx2 : "dimensions" ∉ extra.map Prod.fst)
    (hn8 : ∀ s ∈ names, s.length ≤ 8)
    (hfresh : nm ∉ dsets.map Prod.fst)
    (hnn : nm ∉ names)
    (h0 : inI32 a0) (h1 : inI32 a1) (h2 : inI32 a2) (h3 : inI32 (a3 - 1)) :
    hdf5_remove_dataset (some ⟨[("data",
        ⟨(extra ++ [("datafield_names", ⟨.s 8, (names ++ [nm]).map .str⟩)]) ++
          [("dimensions", ⟨.i32 en, [.num (a0 : ℚ), .num (a1 : ℚ), .num (a2 : ℚ), .num (a3 : ℚ)]⟩)],
          dsets ++ [(nm, dsX)]⟩)]⟩) "/data" nm =
    ⟨some ⟨[("data",
        ⟨(extra ++ [("datafield_names", ⟨.s 8, names.map .str⟩)]) ++
          [("dimensions", ⟨.i32 en, [.num (a0 : ℚ), .num (a1 : ℚ), .num (a2 : ℚ), .num ((a3 - 1 : ℤ) : ℚ)]⟩)],
          dsets⟩)]⟩, none, [], true⟩ := by
  unfold hdf5_remove_dataset
  dsimp only
  rw [getGroup_single _ trimSlash_data1]
  dsimp only
  rw [if_pos (by simp : nm ∈ (dsets ++ [(nm, dsX)]).map Prod.fst)]
  rw [eraseA_append_single _ hfresh]
  rw [setGroup_single _ _ trimSlash_data1]
  rw [is_rfml_mem _ _ (by simp) (by simp)]
  dsimp only
  have hna : lookupA ((extra ++ [("datafield_names", (⟨.s 8, (names ++ [nm]).map .str⟩ : HAttr))]) ++
      [("dimensions", (⟨.i32 en, [.num (a0 : ℚ), .num (a1 : ℚ), .num (a2 : ℚ), .num (a3 : ℚ)]⟩ : HAttr))])
      "datafield_names" = some ⟨.s 8, (names ++ [nm]).map .str⟩ := by
    exact lookupA_append_left _ (by
      rw [lookupA_append_right _ (lookupA_eq_none_of_not_mem hx1)]
      simp [lookupA])
  rw [hna]
  dsimp only
  rw [map_decodeStr_map_str, indexOfQ_append_self hnn]
  dsimp only
  have hda : lookupA ((extra ++ [("datafield_names", (⟨.s 8, (names ++ [nm]).map .str⟩ : HAttr))]) ++
      [("dimensions", (⟨.i32 en, [.num (a0 : ℚ), .num (a1 : ℚ), .num (a2 : ℚ), .num (a3 : ℚ)]⟩ : HAttr))])
      "dimensions" = some ⟨.i32 en, [.num (a0 : ℚ), .num (a1 : ℚ), .num (a2 : ℚ), .num (a3 : ℚ)]⟩ := by
    rw [lookupA_append_right _ (by
      rw [lookupA_append_right _ (lookupA_eq_none_of_not_mem hx2)]
      simp [lookupA])]
    simp [lookupA]
  rw [hda]
  simp only [List.get?, decElem]
  have hni : (List.map HElem.str (names ++ [nm])).eraseIdx names.length =
      List.map HElem.str names := by
    rw [List.map_append, show names.length = (names.map HElem.str).length from
      (List.length_map _ _).symm]
    exact eraseIdx_append_length _ _
  rw [hni]
  rw [replace_attribute_file _ "/data" "datafield_names" (List.map HElem.str names)
    (getGroup_single _ trimSlash_data1) hna]
  rw [coerceList_s_map_str 8 hn8]
  dsimp only
  simp only [Option.getD_some, List.set]
  have her1 : eraseA ((extra ++ [("datafield_names",
      (⟨.s 8, (names ++ [nm]).map .str⟩ : HAttr))]) ++
      [("dimensions", (⟨.i32 en, [.num (a0 : ℚ), .num (a1 : ℚ), .num (a2 : ℚ), .num (a3 : ℚ)]⟩ : HAttr))])
      "datafield_names" =
      extra ++ [("dimensions", (⟨.i32 en, [.num (a0 : ℚ), .num (a1 : ℚ), .num (a2 : ℚ), .num (a3 : ℚ)]⟩ : HAttr))] := by
    rw [List.append_assoc, eraseA_append_of_not_mem _ hx1]
    simp [eraseA]
  rw [her1]
  rw [setGroup_single _ _ trimSlash_data1]
  have hc3 : ((a3 : ℚ) - 1) = (((a3 - 1 : ℤ) : ℚ)) := by push_cast; ring
  rw [hc3]
  have hda2 : lookupA ((extra ++ [("dimensions",
      (⟨.i32 en, [.num (a0 : ℚ), .num (a1 : ℚ), .num (a2 : ℚ), .num (a3 : ℚ)]⟩ : HAttr))]) ++
      [("datafield_names", (⟨.s 8, names.map .str⟩ : HAttr))]) "dimensions" =
      some ⟨.i32 en, [.num (a0 : ℚ), .num (a1 : ℚ), .num (a2 : ℚ), .num (a3 : ℚ)]⟩ := by
    exact lookupA_append_left _ (by
      rw [lookupA_append_right _ (lookupA_eq_none_of_not_mem hx2)]
      simp [lookupA])
  rw [replace_attribute_file _ "/data" "dimensions"
    [HElem.num (a0 : ℚ), HElem.num (a1 : ℚ), HElem.num (a2 : ℚ), HElem.num ((a3 - 1 : ℤ) : ℚ)]
    (getGroup_single _ trimSlash_data1) hda2]
  rw [coerceList_i32_four en h0 h1 h2 h3]
  dsimp only
  simp only [Option.getD_some]
  have her2 : eraseA ((extra ++ [("dimensions",
      (⟨.i32 en, [.num (a0 : ℚ), .num (a1 : ℚ), .num (a2 : ℚ), .num (a3 : ℚ)]⟩ : HAttr))]) ++
      [("datafield_names", (⟨.s 8, names.map .str⟩ : HAttr))]) "dimensions" =
      extra ++ [("datafield_names", (⟨.s 8, names.map .str⟩ : HAttr))] := by
    rw [List.append_assoc, eraseA_append_of_not_mem _ hx2]
    simp [eraseA]
  rw [her2]
  rw [setGroup_single _ _ trimSlash_data1]
  simp [List.append_assoc]

theorem add_dataset_file_long (names : List String) (en : Endian) (k0 k1 k2 k3 : ℤ)
    (extra : List (String × HAttr)) (dsets : List (String × HDataset))
    (nm : String) (dt : HType) (shape : List Nat) (vals wvals : List HElem)
    (hfresh : nm ∉ dsets.map Prod.fst)
    (hk0 : inI32 k0) (hk1 : inI32 k1) (hk2 : inI32 k2) (hk3 : inI32 k3)
    (hk3p : k3 + 1 < 2 ^ 31)
    (hvals : coerceList dt vals = some wvals) :
    hdf5_add_dataset (some (mkData names en
        [.num (k0 : ℚ), .num (k1 : ℚ), .num (k2 : ℚ), .num (k3 : ℚ)] extra dsets))
      "/data" nm dt shape vals =
    ⟨some ⟨[("data", ⟨(extra ++ [("datafield_names",
        ⟨.s 8, (names ++ [nm]).map fun s => HElem.str (strFix 8 s)⟩)]) ++
        [("dimensions", ⟨.i32 en, [.num (k0 : ℚ), .num (k1 : ℚ), .num (k2 : ℚ), .num ((k3 + 1 : ℤ) : ℚ)]⟩)],
        dsets ++ [(nm, ⟨dt, shape, wvals⟩)]⟩)]⟩, none, [], true⟩ := by
  unfold mkData hdf5_add_dataset
  rw [is_rfml_single]
  dsimp only
  rw [getGroup_single _ trimSlash_data1]
  dsimp only
  unfold dataset_write
  dsimp only
  rw [if_neg hfresh, hvals]
  dsimp only
  rw [setGroup_single _ _ trimSlash_data1]
  rw [read_variables_single]
  dsimp only
  unfold hdf5_read_attribute
  dsimp only
  rw [getGroup_single _ trimSlash_data1]
  dsimp only
  simp only [lookupA, String.reduceEq, reduceIte]
  simp only [List.get?, incElem]
  rw [replace_attribute_file _ "/data" "datafield_names"
    (List.map HElem.str (names ++ [nm])) (getGroup_single _ trimSlash_data1)
    (by simp [lookupA] :
      lookupA (("datafield_names", (⟨.s 8, names.map .str⟩ : HAttr)) ::
        ("dimensions", (⟨.i32 en, [.num (k0 : ℚ), .num (k1 : ℚ), .num (k2 : ℚ), .num (k3 : ℚ)]⟩ : HAttr)) ::
        extra) "datafield_names" = some ⟨.s 8, names.map .str⟩)]
  rw [coerceList_s_map_str_total 8 (names ++ [nm])]
  dsimp only
  simp only [Option.getD_some, eraseA, String.reduceEq, reduceIte, List.set, List.cons_append]
  rw [setGroup_single _ _ trimSlash_data1]
  have hc3 : ((k3 : ℚ) + 1) = (((k3 + 1 : ℤ) : ℚ)) := by push_cast; ring
  rw [hc3]
  rw [replace_attribute_file _ "/data" "dimensions"
    [HElem.num (k0 : ℚ), HElem.num (k1 : ℚ), HElem.num (k2 : ℚ), HElem.num ((k3 + 1 : ℤ) : ℚ)]
    (getGroup_single _ trimSlash_data1)
    (by simp [lookupA] :
      lookupA (("dimensions", (⟨.i32 en, [.num (k0 : ℚ), .num (k1 : ℚ), .num (k2 : ℚ), .num (k3 : ℚ)]⟩ : HAttr)) ::
        (extra ++ [("datafield_names",
          (⟨.s 8, (names ++ [nm]).map fun s => HElem.str (strFix 8 s)⟩ : HAttr))]))
        "dimensions" =
        some ⟨.i32 en, [.num (k0 : ℚ), .num (k1 : ℚ), .num (k2 : ℚ), .num (k3 : ℚ)]⟩)]
  have hk3' : inI32 (k3 + 1) := ⟨by have := hk3.1; linarith, hk3p⟩
  rw [coerceList_i32_four en hk0 hk1 hk2 hk3']
  dsimp only
  simp only [Option.getD_some, eraseA, String.reduceEq, reduceIte, List.cons_append]
  rw [setGroup_single _ _ trimSlash_data1]
  simp [List.append_assoc]

theorem remove_dataset_missing_name (attrs : List (String × HAttr))
    (ds : List (String × HDataset)) (nm : String) (na : HAttr)
    (hds : nm ∈ ds.map Prod.fst)
    (h1 : "datafield_names" ∈ attrs.map Prod.fst)
    (h2 : "dimensions" ∈ attrs.map Prod.fst)
    (hna : lookupA attrs "datafield_names" = some na)
    (hidx : indexOfQ (na.avals.map decodeStr) nm = none) :
    hdf5_remove_dataset (some ⟨[("data", ⟨attrs, ds⟩)]⟩) "/data" nm =
      ⟨some ⟨[("data", ⟨attrs, eraseA ds nm⟩)]⟩, none, [.valueError], true⟩ := by
  unfold hdf5_remove_dataset
  dsimp only
  rw [getGroup_single _ trimSlash_data1]
  dsimp only
  rw [if_pos hds]
  rw [setGroup_single _ _ trimSlash_data1]
  rw [is_rfml_mem _ _ h1 h2]
  dsimp only
  rw [hna]
  dsimp only
  rw [hidx]

theorem lookupA_append_single_ne {α : Type} (l : List (String × α)) {k n : String} (v : α)
    (h : k ≠ n) : lookupA (l ++ [(n, v)]) k = lookupA l k := by
  cases hx : lookupA l k with
  | some w => exact lookupA_append_left _ hx
  | none =>
      rw [lookupA_append_right _ hx]
      simp only [lookupA]
      rw [if_neg fun hc : n = k => h hc.symm]

theorem writeFields_spec (t : HType) :
    ∀ (items : List (String × List Nat × List HElem)) (g : HGroup),
      (items.map Prod.fst).Nodup →
      (∀ n ∈ items.map Prod.fst, n ∉ g.dsets.map Prod.fst) →
      (∀ it ∈ items, coerceList t it.2.2 = some it.2.2) →
      (writeFields g t items).2 = none ∧
      (writeFields g t items).1.attrs = g.attrs ∧
      (∀ it ∈ items, lookupA (writeFields g t items).1.dsets it.1 = some ⟨t, it.2.1, it.2.2⟩) ∧
      (∀ k, k ∉ items.map Prod.fst →
        lookupA (writeFields g t items).1.dsets k = lookupA g.dsets k) := by
  intro items
  induction items with
  | nil =>
      intro g _ _ _
      refine ⟨rfl, rfl, ?_, ?_⟩
      · intro it h
        cases h
      · intro k _
        rfl
  | cons it0 rest ih =>
      obtain ⟨n, sh, dv⟩ := it0
      intro g hnd hdisj hco
      rw [List.map_cons, List.nodup_cons] at hnd
      have hfresh : n ∉ g.dsets.map Prod.fst :=
        hdisj n (by rw [List.map_cons]; exact List.mem_cons_self _ _)
      have hcon : coerceList t dv = some dv := hco ⟨n, sh, dv⟩ (List.mem_cons_self _ _)
      have hw : dataset_write g n t sh dv =
          ({ g with dsets := g.dsets ++ [(n, ⟨t, sh, dv⟩)] }, none) := by
        unfold dataset_write
        rw [if_neg hfresh, hcon]
      have hstep : writeFields g t ((n, sh, dv) :: rest) =
          writeFields { g with dsets := g.dsets ++ [(n, ⟨t, sh, dv⟩)] } t rest := by
        have hq : writeFields g t ((n, sh, dv) :: rest) =
            match dataset_write g n t sh dv with
            | (g1, none) => writeFields g1 t rest
            | (g1, some e) => (g1, some e) := rfl
        rw [hq, hw]
      have hdisj1 : ∀ m ∈ rest.map Prod.fst,
          m ∉ ({ g with dsets := g.dsets ++ [(n, ⟨t, sh, dv⟩)] } : HGroup).dsets.map Prod.fst := by
        intro m hm
        have hmn : m ≠ n := fun hc => hnd.1 (hc ▸ hm)
        have hmg : m ∉ g.dsets.map Prod.fst :=
          hdisj m (by rw [List.map_cons]; exact List.mem_cons_of_mem _ hm)
        simp only [List.map_append]
        intro hc
        rcases List.mem_append.mp hc with hc | hc
        · exact hmg hc
        · simp at hc
          exact hmn hc
      obtain ⟨e1, e2, e3, e4⟩ := ih { g with dsets := g.dsets ++ [(n, ⟨t, sh, dv⟩)] }
        hnd.2 hdisj1 (fun x hx => hco x (List.mem_cons_of_mem _ hx))
      rw [hstep]
      refine ⟨e1, e2, ?_, ?_⟩
      · intro x hx
        rcases List.mem_cons.mp hx with hx | hx
        · subst hx
          rw [e4 n hnd.1]
          dsimp only
          rw [lookupA_append_right _ (lookupA_eq_none_of_not_mem hfresh)]
          simp [lookupA]
        · exact e3 x hx
      · intro k hk
        rw [List.map_cons] at hk
        have hk1 : k ≠ n := fun hc => hk (hc ▸ List.mem_cons_self _ _)
        have hk2 : k ∉ rest.map Prod.fst := fun hc => hk (List.mem_cons_of_mem _ hc)
        rw [e4 k hk2]
        dsimp only
        exact lookupA_append_single_ne _ _ hk1

theorem coerceList_f64_map_num (en : Endian) (xs : List ℚ) :
    coerceList (.f64 en) (xs.map .num) = some (xs.map .num) := by
  induction xs with
  | nil => rfl
  | cons a t ih =>
      rw [List.map_cons]
      simp only [coerceList, coerceElem]
      rw [ih]

theorem config_write_file (simname : String) (x y z : List ℚ) (icyl p0 p1 p2 : ℤ)
    (ir : List ℤ) (mask maskv parv : List HElem) (maskShape : List Nat) (en : Endian)
    (xm ym zm : List ℚ)
    (hpar : coerceList (.i32 en)
      ([icyl, p0, p1, p2, (x.length : ℤ) - 1, (y.length : ℤ) - 1, (z.length : ℤ) - 1].map
        fun k => HElem.num (k : ℚ)) = some parv)
    (hmask : coerceList (.i32 en) mask = some maskv)
    (hxm : npMid (pySlice 1 ((x.length : ℤ) - 1) x)
      (pySlice 0 ((x.length : ℤ) - 1 - 1) x) = some xm)
    (hym : npMid (pySlice 1 ((x.length : ℤ) - 1) y)
      (pySlice 0 ((x.length : ℤ) - 1 - 1) y) = some ym)
    (hzm : npMid (pySlice 1 ((x.length : ℤ) - 1) z)
      (pySlice 0 ((x.length : ℤ) - 1 - 1) z) = some zm) :
    hdf5_NGA_config_write simname x y z icyl (p0 :: p1 :: p2 :: ir) mask maskShape en =
      ⟨some ⟨[("data", ⟨[("simulation_name", ⟨.s 64, [.str (strFix 64 simname)]⟩),
          ("parameters", ⟨.i32 en, parv⟩)],
        [("mask", ⟨.i32 en, maskShape, maskv⟩),
         ("x", ⟨.f64 en, [x.length], x.map .num⟩),
         ("y", ⟨.f64 en, [y.length], y.map .num⟩),
         ("z", ⟨.f64 en, [z.length], z.map .num⟩),
         ("xm", ⟨.f64 en, [xm.length], xm.map .num⟩),
         ("ym", ⟨.f64 en, [ym.length], ym.map .num⟩),
         ("zm", ⟨.f64 en, [zm.length], zm.map .num⟩)]⟩)]⟩, none, true⟩ := by
  have hit : (if en = Endian.big then HType.i32 .big else HType.i32 .little) = .i32 en := by
    cases en <;> rfl
  have hft : (if en = Endian.big then HType.f64 .big else HType.f64 .little) = .f64 en := by
    cases en <;> rfl
  have hsim : coerceList (.s 64) [HElem.str simname] =
      some [HElem.str (strFix 64 simname)] := by
    simp [coerceList, coerceElem]
  unfold hdf5_NGA_config_write
  dsimp only
  rw [hit, hft]
  unfold oned_attribute_write
  rw [hsim]
  dsimp only
  simp only [List.get?]
  rw [hpar]
  dsimp only
  unfold dataset_write
  dsimp only
  rw [hmask]
  dsimp only
  simp only [List.map_append, List.map_cons, List.map_nil, List.mem_append, List.mem_cons,
    List.not_mem_nil, String.reduceEq, or_false, false_or, or_self, reduceIte]
  rw [coerceList_f64_map_num en x]
  dsimp only
  simp only [List.map_append, List.map_cons, List.map_nil, List.mem_append, List.mem_cons,
    List.not_mem_nil, String.reduceEq, or_false, false_or, or_self, reduceIte]
  rw [coerceList_f64_map_num en y]
  dsimp only
  simp only [List.map_append, List.map_cons, List.map_nil, List.mem_append, List.mem_cons,
    List.not_mem_nil, String.reduceEq, or_false, false_or, or_self, reduceIte]
  rw [coerceList_f64_map_num en z]
  dsimp only
  rw [hxm]
  dsimp only
  simp only [List.map_append, List.map_cons, List.map_nil, List.mem_append, List.mem_cons,
    List.not_mem_nil, String.reduceEq, or_false, false_or, or_self, reduceIte]
  rw [coerceList_f64_map_num en xm]
  dsimp only
  rw [hym]
  dsimp only
  simp only [List.map_append, List.map_cons, List.map_nil, List.mem_append, List.mem_cons,
    List.not_mem_nil, String.reduceEq, or_false, false_or, or_self, reduceIte]
  rw [coerceList_f64_map_num en ym]
  dsimp only
  rw [hzm]
  dsimp only
  simp only [List.map_append, List.map_cons, List.map_nil, List.mem_append, List.mem_cons,
    List.not_mem_nil, String.reduceEq, or_false, false_or, or_self, reduceIte]
  rw [coerceList_f64_map_num en zm]
  dsimp only
  simp [List.append_assoc]

theorem range6 : List.range 6 = [0, 1, 2, 3, 4, 5] := by decide

theorem cfgX_eq : cfgX = [-1, -3/5, -1/5, 1/5, 3/5, 1] := by
  rw [show cfgX = (List.range 6).map
    (fun i => (-1 : ℚ) + (1 - (-1)) * i / (6 - 1)) from rfl, range6]
  norm_num [List.map]

theorem range11 : List.range 11 = [0, 1, 2, 3, 4, 5, 6, 7, 8, 9, 10] := by decide

theorem range21 : List.range 21 =
  [0, 1, 2, 3, 4, 5, 6, 7, 8, 9, 10, 11, 12, 13, 14, 15, 16, 17, 18, 19, 20] := by decide

theorem cfgY_eq : cfgY = [-2, -8/5, -6/5, -4/5, -2/5, 0, 2/5, 4/5, 6/5, 8/5, 2] := by
  rw [show cfgY = (List.range 11).map
    (fun i => (-2 : ℚ) + (2 - (-2)) * i / (11 - 1)) from rfl, range11]
  norm_num [List.map]

theorem cfgZ_eq : cfgZ = [-4, -18/5, -16/5, -14/5, -12/5, -2, -8/5, -6/5, -4/5, -2/5, 0,
    2/5, 4/5, 6/5, 8/5, 2, 12/5, 14/5, 16/5, 18/5, 4] := by
  rw [show cfgZ = (List.range 21).map
    (fun i => (-4 : ℚ) + (4 - (-4)) * i / (21 - 1)) from rfl, range21]
  norm_num [List.map]

theorem cfgX_len : ((cfgX.length : ℤ) - 1) = 5 := by rw [cfgX_eq]; norm_num

theorem cfg_hxm : npMid (pySlice 1 ((cfgX.length : ℤ) - 1) cfgX)
    (pySlice 0 ((cfgX.length : ℤ) - 1 - 1) cfgX) = some [-4/5, -2/5, 0, 2/5] := by
  rw [cfgX_len]
  rw [cfgX_eq]
  norm_num [npMid, pySlice, pyClamp, pyIdx, List.zipWith]
  intro h
  exact absurd (by decide) h

theorem cfg_hym : npMid (pySlice 1 ((cfgX.length : ℤ) - 1) cfgY)
    (pySlice 0 ((cfgX.length : ℤ) - 1 - 1) cfgY) = some [-9/5, -7/5, -1, -3/5] := by
  rw [cfgX_len]
  rw [cfgY_eq]
  norm_num [npMid, pySlice, pyClamp, pyIdx, List.zipWith]
  intro h
  exact absurd (by decide) h

theorem cfg_hzm : npMid (pySlice 1 ((cfgX.length : ℤ) - 1) cfgZ)
    (pySlice 0 ((cfgX.length : ℤ) - 1 - 1) cfgZ) = some [-19/5, -17/5, -3, -13/5] := by
  rw [cfgX_len]
  rw [cfgZ_eq]
  norm_num [npMid, pySlice, pyClamp, pyIdx, List.zipWith]
  intro h
  exact absurd (by decide) h

/-! ## Claim theorems -/

/-- C1 (amended): on a convention file, `hdf5_add_dataset` with a fresh
name that fits the 8-byte name width of the convention writes the dataset
and updates the bookkeeping: `datafield_names` becomes the previous list
with the new name appended at the end (previous order preserved),
`dimensions[3]` becomes its previous value plus one, and the new dataset
reads back with the written (type-converted) values.  Names longer than
8 bytes are truncated in `datafield_names` (see the counterexample), which
is the only amendment to the claim. -/
theorem addDataset_updates_bookkeeping (names : List String) (en : Endian)
    (k0 k1 k2 k3 : ℤ) (extra : List (String × HAttr)) (dsets : List (String × HDataset))
    (nm : String) (dt : HType) (shape : List Nat) (vals wvals : List HElem)
    (hx1 : "datafield_names" ∉ extra.map Prod.fst)
    (hx2 : "dimensions" ∉ extra.map Prod.fst)
    (hn8 : ∀ s ∈ names, s.length ≤ 8)
    (hfresh : nm ∉ dsets.map Prod.fst)
    (hnm8 : nm.length ≤ 8)
    (hk0 : inI32 k0) (hk1 : inI32 k1) (hk2 : inI32 k2) (hk3 : inI32 k3)
    (hk3p : k3 + 1 < 2 ^ 31)
    (hvals : coerceList dt vals = some wvals) :
    (hdf5_add_dataset (some (mkData names en
        [.num (k0 : ℚ), .num (k1 : ℚ), .num (k2 : ℚ), .num (k3 : ℚ)] extra dsets))
      "/data" nm dt shape vals).raised = none ∧
    (hdf5_add_dataset (some (mkData names en
        [.num (k0 : ℚ), .num (k1 : ℚ), .num (k2 : ℚ), .num (k3 : ℚ)] extra dsets))
      "/data" nm dt shape vals).printed = [] ∧
    hdf5_read_variables (hdf5_add_dataset (some (mkData names en
        [.num (k0 : ℚ), .num (k1 : ℚ), .num (k2 : ℚ), .num (k3 : ℚ)] extra dsets))
      "/data" nm dt shape vals).file = .ok (names ++ [nm]) ∧
    (hdf5_read_attribute (hdf5_add_dataset (some (mkData names en
        [.num (k0 : ℚ), .num (k1 : ℚ), .num (k2 : ℚ), .num (k3 : ℚ)] extra dsets))
      "/data" nm dt shape vals).file "/data" "dimensions").res =
      .ok [.num (k0 : ℚ), .num (k1 : ℚ), .num (k2 : ℚ), .num ((k3 + 1 : ℤ) : ℚ)] ∧
    (hdf5_read_dataset (hdf5_add_dataset (some (mkData names en
        [.num (k0 : ℚ), .num (k1 : ℚ), .num (k2 : ℚ), .num (k3 : ℚ)] extra dsets))
      "/data" nm dt shape vals).file "/data" nm).res = .ok wvals := by
  rw [add_dataset_file names en k0 k1 k2 k3 extra dsets nm dt shape vals wvals
    hn8 hfresh hnm8 hk0 hk1 hk2 hk3 hk3p hvals]
  refine ⟨rfl, rfl, ?_, ?_, ?_⟩
  · have hlook : lookupA ((extra ++
        [("datafield_names", (⟨.s 8, (names ++ [nm]).map .str⟩ : HAttr))]) ++
        [("dimensions", (⟨.i32 en,
          [.num (k0 : ℚ), .num (k1 : ℚ), .num (k2 : ℚ), .num ((k3 + 1 : ℤ) : ℚ)]⟩ : HAttr))])
        "datafield_names" = some ⟨.s 8, (names ++ [nm]).map .str⟩ :=
      lookupA_append_left _ (by
        rw [lookupA_append_right _ (lookupA_eq_none_of_not_mem hx1)]
        simp [lookupA])
    exact read_variables_of (names ++ [nm]) _ (by simp) (by simp) hlook rfl
  · rw [read_attribute_single _ trimSlash_data1 (by
      rw [lookupA_append_right _ (by
        rw [lookupA_append_right _ (lookupA_eq_none_of_not_mem hx2)]
        simp [lookupA])]
      simp [lookupA] :
      lookupA ((extra ++ [("datafield_names", (⟨.s 8, (names ++ [nm]).map .str⟩ : HAttr))]) ++
        [("dimensions", (⟨.i32 en,
          [.num (k0 : ℚ), .num (k1 : ℚ), .num (k2 : ℚ), .num ((k3 + 1 : ℤ) : ℚ)]⟩ : HAttr))])
        "dimensions" = some ⟨.i32 en,
          [.num (k0 : ℚ), .num (k1 : ℚ), .num (k2 : ℚ), .num ((k3 + 1 : ℤ) : ℚ)]⟩)]
  · rw [read_dataset_single _ trimSlash_data1 (by
      rw [lookupA_append_right _ (lookupA_eq_none_of_not_mem hfresh)]
      simp [lookupA] :
      lookupA (dsets ++ [(nm, (⟨dt, shape, wvals⟩ : HDataset))]) nm =
        some ⟨dt, shape, wvals⟩)]

/-- C1 witness: the amended claim applied to the concrete scenario — the
one-field 10×10×10 snapshot with field `C`, adding field `T`. -/
theorem addDataset_updates_bookkeeping_witness :
    (∀ s ∈ snapNames, s.length ≤ 8) ∧ "T" ∉ snapDsets.map Prod.fst ∧
    ("T" : String).length ≤ 8 ∧ inI32 1 ∧ (1 : ℤ) + 1 < 2 ^ 31 ∧
    ((hdf5_add_dataset (some (mkData snapNames .little
        [.num ((10 : ℤ) : ℚ), .num ((10 : ℤ) : ℚ), .num ((10 : ℤ) : ℚ), .num ((1 : ℤ) : ℚ)]
        snapExtra snapDsets))
      "/data" "T" (.f64 .little) [10, 10, 10] (zerosN 1000)).raised = none ∧
    (hdf5_add_dataset (some (mkData snapNames .little
        [.num ((10 : ℤ) : ℚ), .num ((10 : ℤ) : ℚ), .num ((10 : ℤ) : ℚ), .num ((1 : ℤ) : ℚ)]
        snapExtra snapDsets))
      "/data" "T" (.f64 .little) [10, 10, 10] (zerosN 1000)).printed = [] ∧
    hdf5_read_variables (hdf5_add_dataset (some (mkData snapNames .little
        [.num ((10 : ℤ) : ℚ), .num ((10 : ℤ) : ℚ), .num ((10 : ℤ) : ℚ), .num ((1 : ℤ) : ℚ)]
        snapExtra snapDsets))
      "/data" "T" (.f64 .little) [10, 10, 10] (zerosN 1000)).file = .ok (snapNames ++ ["T"]) ∧
    (hdf5_read_attribute (hdf5_add_dataset (some (mkData snapNames .little
        [.num ((10 : ℤ) : ℚ), .num ((10 : ℤ) : ℚ), .num ((10 : ℤ) : ℚ), .num ((1 : ℤ) : ℚ)]
        snapExtra snapDsets))
      "/data" "T" (.f64 .little) [10, 10, 10] (zerosN 1000)).file "/data" "dimensions").res =
      .ok [.num ((10 : ℤ) : ℚ), .num ((10 : ℤ) : ℚ), .num ((10 : ℤ) : ℚ),
        .num ((1 + 1 : ℤ) : ℚ)] ∧
    (hdf5_read_dataset (hdf5_add_dataset (some (mkData snapNames .little
        [.num ((10 : ℤ) : ℚ), .num ((10 : ℤ) : ℚ), .num ((10 : ℤ) : ℚ), .num ((1 : ℤ) : ℚ)]
        snapExtra snapDsets))
      "/data" "T" (.f64 .little) [10, 10, 10] (zerosN 1000)).file "/data" "T").res =
      .ok (zerosN 1000)) :=
  ⟨by decide, by decide, by decide, by decide, by decide,
    addDataset_updates_bookkeeping snapNames .little 10 10 10 1 snapExtra snapDsets
      "T" (.f64 .little) [10, 10, 10] (zerosN 1000) (zerosN 1000)
      (by decide) (by decide) (by decide) (by decide) (by decide)
      (by decide) (by decide) (by decide) (by decide) (by decide)
      (coerceList_f64_allnum .little fun x hx =>
        ⟨0, List.eq_of_mem_replicate hx⟩)⟩

/-- C1 counterexample: adding a dataset whose name exceeds the 8-byte
name width stores the truncation `verylong` in `datafield_names`, so the
claimed equality "previous list with the new name appended" fails for the
name `verylongname`. -/
theorem addDataset_longname_counterexample :
    addLongR.raised = none ∧ addLongR.printed = [] ∧
    hdf5_read_variables addLongR.file = .ok ["C", "verylong"] ∧
    hdf5_read_variables addLongR.file ≠ .ok ["C", "verylongname"] := by decide

/-- C9 (amended): on a convention file, `hdf5_add_dataset` of a fresh
name that fits the 8-byte name width followed by `hdf5_remove_dataset` of
that same name restores `datafield_names` and `dimensions` (in particular
`dimensions[3]`) to their observable values before the pair of calls.
Names longer than 8 bytes break the restoration (see the counterexample),
which is the only amendment to the claim. -/
theorem addRemove_restores_bookkeeping (names : List String) (en : Endian)
    (k0 k1 k2 k3 : ℤ) (extra : List (String × HAttr)) (dsets : List (String × HDataset))
    (nm : String) (dt : HType) (shape : List Nat) (vals wvals : List HElem)
    (hx1 : "datafield_names" ∉ extra.map Prod.fst)
    (hx2 : "dimensions" ∉ extra.map Prod.fst)
    (hn8 : ∀ s ∈ names, s.length ≤ 8)
    (hfresh : nm ∉ dsets.map Prod.fst)
    (hnm8 : nm.length ≤ 8)
    (hnn : nm ∉ names)
    (hk0 : inI32 k0) (hk1 : inI32 k1) (hk2 : inI32 k2) (hk3 : inI32 k3)
    (hk3p : k3 + 1 < 2 ^ 31)
    (hvals : coerceList dt vals = some wvals) :
    hdf5_read_variables (hdf5_remove_dataset (hdf5_add_dataset (some (mkData names en
        [.num (k0 : ℚ), .num (k1 : ℚ), .num (k2 : ℚ), .num (k3 : ℚ)] extra dsets))
        "/data" nm dt shape vals).file "/data" nm).file =
      hdf5_read_variables (some (mkData names en
        [.num (k0 : ℚ), .num (k1 : ℚ), .num (k2 : ℚ), .num (k3 : ℚ)] extra dsets)) ∧
    (hdf5_read_attribute (hdf5_remove_dataset (hdf5_add_dataset (some (mkData names en
        [.num (k0 : ℚ), .num (k1 : ℚ), .num (k2 : ℚ), .num (k3 : ℚ)] extra dsets))
        "/data" nm dt shape vals).file "/data" nm).file "/data" "dimensions").res =
      (hdf5_read_attribute (some (mkData names en
        [.num (k0 : ℚ), .num (k1 : ℚ), .num (k2 : ℚ), .num (k3 : ℚ)] extra dsets))
        "/data" "dimensions").res := by
  rw [add_dataset_file names en k0 k1 k2 k3 extra dsets nm dt shape vals wvals
    hn8 hfresh hnm8 hk0 hk1 hk2 hk3 hk3p hvals]
  dsimp only
  have h3m : inI32 (k3 + 1 - 1) := by
    have h : k3 + 1 - 1 = k3 := by ring
    rw [h]
    exact hk3
  rw [remove_dataset_file names en k0 k1 k2 (k3 + 1) extra dsets nm ⟨dt, shape, wvals⟩
    hx1 hx2 hn8 hfresh hnn hk0 hk1 hk2 h3m]
  dsimp only
  have hk31 : k3 + 1 - 1 = k3 := by ring
  rw [hk31]
  constructor
  · have hL : lookupA ((extra ++ [("datafield_names", (⟨.s 8, names.map .str⟩ : HAttr))]) ++
        [("dimensions", (⟨.i32 en,
          [.num (k0 : ℚ), .num (k1 : ℚ), .num (k2 : ℚ), .num (k3 : ℚ)]⟩ : HAttr))])
        "datafield_names" = some ⟨.s 8, names.map .str⟩ :=
      lookupA_append_left _ (by
        rw [lookupA_append_right _ (lookupA_eq_none_of_not_mem hx1)]
        simp [lookupA])
    rw [read_variables_of names _ (by simp) (by simp) hL rfl]
    unfold mkData
    rw [read_variables_single]
  · have hL : lookupA ((extra ++ [("datafield_names", (⟨.s 8, names.map .str⟩ : HAttr))]) ++
        [("dimensions", (⟨.i32 en,
          [.num (k0 : ℚ), .num (k1 : ℚ), .num (k2 : ℚ), .num (k3 : ℚ)]⟩ : HAttr))])
        "dimensions" = some ⟨.i32 en,
          [.num (k0 : ℚ), .num (k1 : ℚ), .num (k2 : ℚ), .num (k3 : ℚ)]⟩ := by
      rw [lookupA_append_right _ (by
        rw [lookupA_append_right _ (lookupA_eq_none_of_not_mem hx2)]
        simp [lookupA])]
      simp [lookupA]
    rw [read_attribute_single _ trimSlash_data1 hL]
    unfold mkData
    rw [read_attribute_single _ trimSlash_data1 (by simp [lookupA] :
      lookupA (("datafield_names", (⟨.s 8, names.map .str⟩ : HAttr)) ::
        ("dimensions", (⟨.i32 en,
          [.num (k0 : ℚ), .num (k1 : ℚ), .num (k2 : ℚ), .num (k3 : ℚ)]⟩ : HAttr)) :: extra)
        "dimensions" = some ⟨.i32 en,
          [.num (k0 : ℚ), .num (k1 : ℚ), .num (k2 : ℚ), .num (k3 : ℚ)]⟩)]

/-- C9 witness: the amended round-trip claim applied to the concrete
one-field snapshot, adding and removing field `T`. -/
theorem addRemove_restores_bookkeeping_witness :
    (∀ s ∈ snapNames, s.length ≤ 8) ∧ "T" ∉ snapDsets.map Prod.fst ∧
    ("T" : String).length ≤ 8 ∧ "T" ∉ snapNames ∧
    (hdf5_read_variables (hdf5_remove_dataset (hdf5_add_dataset (some (mkData snapNames .little
        [.num ((10 : ℤ) : ℚ), .num ((10 : ℤ) : ℚ), .num ((10 : ℤ) : ℚ), .num ((1 : ℤ) : ℚ)]
        snapExtra snapDsets))
        "/data" "T" (.f64 .little) [10, 10, 10] (zerosN 1000)).file "/data" "T").file =
      hdf5_read_variables (some (mkData snapNames .little
        [.num ((10 : ℤ) : ℚ), .num ((10 : ℤ) : ℚ), .num ((10 : ℤ) : ℚ), .num ((1 : ℤ) : ℚ)]
        snapExtra snapDsets)) ∧
    (hdf5_read_attribute (hdf5_remove_dataset (hdf5_add_dataset (some (mkData snapNames .little
        [.num ((10 : ℤ) : ℚ), .num ((10 : ℤ) : ℚ), .num ((10 : ℤ) : ℚ), .num ((1 : ℤ) : ℚ)]
        snapExtra snapDsets))
        "/data" "T" (.f64 .little) [10, 10, 10] (zerosN 1000)).file "/data" "T").file
        "/data" "dimensions").res =
      (hdf5_read_attribute (some (mkData snapNames .little
        [.num ((10 : ℤ) : ℚ), .num ((10 : ℤ) : ℚ), .num ((10 : ℤ) : ℚ), .num ((1 : ℤ) : ℚ)]
        snapExtra snapDsets)) "/data" "dimensions").res) :=
  ⟨by decide, by decide, by decide, by decide,
    addRemove_restores_bookkeeping snapNames .little 10 10 10 1 snapExtra snapDsets
      "T" (.f64 .little) [10, 10, 10] (zerosN 1000) (zerosN 1000)
      (by decide) (by decide) (by decide) (by decide) (by decide) (by decide)
      (by decide) (by decide) (by decide) (by decide) (by decide)
      (coerceList_f64_allnum .little fun x hx => ⟨0, List.eq_of_mem_replicate hx⟩)⟩

/-- C9 counterexample: for the over-long name `verylongname` the
add-then-remove pair does NOT restore the bookkeeping — the remove step
cannot find the truncated entry in `datafield_names`, prints a
`ValueError` and leaves both attributes at their post-add values
(`dimensions[3] = 2`, names `["C", "verylong"]`). -/
theorem addRemove_longname_counterexample :
    hdf5_read_variables cexRem.file ≠ hdf5_read_variables (some cexSnap) ∧
    (hdf5_read_attribute cexRem.file "/data" "dimensions").res ≠
      (hdf5_read_attribute (some cexSnap) "/data" "dimensions").res ∧
    hdf5_read_variables cexRem.file = .ok ["C", "verylong"] ∧
    (hdf5_read_attribute cexRem.file "/data" "dimensions").res =
      .ok [.num ((2 : ℤ) : ℚ), .num ((2 : ℤ) : ℚ), .num ((2 : ℤ) : ℚ), .num ((2 : ℤ) : ℚ)] := by
  have hstr : (["C"] ++ ["verylongname"]).map (fun s => HElem.str (strFix 8 s)) =
      [.str "C", .str "verylong"] := by decide
  have h2 : ((1 + 1 : ℤ) : ℚ) = ((2 : ℤ) : ℚ) := by norm_num
  have hadd : cexAdd = ⟨some ⟨[("data",
      ⟨[("datafield_names", ⟨.s 8, [.str "C", .str "verylong"]⟩),
        ("dimensions", ⟨.i32 .little, [.num ((2 : ℤ) : ℚ), .num ((2 : ℤ) : ℚ),
          .num ((2 : ℤ) : ℚ), .num ((2 : ℤ) : ℚ)]⟩)],
        [("C", ⟨.f64 .little, [2, 2, 2], zerosN 8⟩),
         ("verylongname", ⟨.f64 .little, [2, 2, 2], zerosN 8⟩)]⟩)]⟩,
      none, [], true⟩ := by
    unfold cexAdd cexSnap cexDims
    rw [add_dataset_file_long ["C"] .little 2 2 2 1 [] _ "verylongname" (.f64 .little)
      [2, 2, 2] (zerosN 8) (zerosN 8) (by decide) (by decide) (by decide) (by decide)
      (by decide) (by decide)
      (coerceList_f64_allnum .little fun x hx => ⟨0, List.eq_of_mem_replicate hx⟩)]
    rw [hstr, h2]
    rfl
  have hrem : cexRem = ⟨some ⟨[("data",
      ⟨[("datafield_names", ⟨.s 8, [.str "C", .str "verylong"]⟩),
        ("dimensions", ⟨.i32 .little, [.num ((2 : ℤ) : ℚ), .num ((2 : ℤ) : ℚ),
          .num ((2 : ℤ) : ℚ), .num ((2 : ℤ) : ℚ)]⟩)],
        [("C", ⟨.f64 .little, [2, 2, 2], zerosN 8⟩)]⟩)]⟩,
      none, [.valueError], true⟩ := by
    unfold cexRem
    rw [hadd]
    dsimp only
    rw [remove_dataset_missing_name _ _ "verylongname" ⟨.s 8, [.str "C", .str "verylong"]⟩
      (by decide) (by decide) (by decide) (by decide) (by decide)]
    rfl
  rw [hrem, show cexSnap = cexSnap from rfl]
  unfold cexSnap cexDims mkData
  decide

/-- C2 (code bug evidence): removing an absent dataset does NOT fail with
a caller-visible error.  Building the message of the intended `NameError`
itself raises (the source refers to the undefined variable
`datafield_name`), the handler catches and PRINTS it, and the call
returns normally with the file unchanged — the claimed `NotFoundError`
never reaches the caller. -/
theorem removeDataset_missing_swallows_error :
    hdf5_remove_dataset (some tinySnap) "/data" "X" =
      ⟨some tinySnap, none, [.nameError "name datafield_name is not defined"], true⟩ := by
  decide

/-- C5 counterexample: on a file that cannot be opened, `is_rfml_hdf5`
raises the open error to the caller instead of resolving to false — the
open sits before the protected region. -/
theorem isConventionFile_open_failure_counterexample :
    (is_rfml_hdf5 none).res = .error .openError ∧
    (is_rfml_hdf5 none).res ≠ .ok false := by decide

/-- C5 (amended): once the file HAS been opened, `is_rfml_hdf5` returns
exactly the convention condition of the spec — a group named `data`
directly under the root carrying both `datafield_names` and `dimensions`
— and any failure after the open resolves to false (the `return` in the
cleanup block swallows it); the handle is released on every path.
Failure to open the file itself, however, propagates as an error (see the
counterexample), which is the only amendment to the claim. -/
theorem isConventionFile_spec (c : Container) :
    (is_rfml_hdf5 (some c)).res = .ok (isConventionSpec c) ∧
    (is_rfml_hdf5 (some c)).released = true ∧
    (is_rfml_hdf5 none).released = true := by
  refine ⟨?_, rfl, rfl⟩
  unfold is_rfml_hdf5 isConventionSpec
  cases h : lookupA c.groups "data" with
  | none => simp [h]
  | some g =>
      simp only [h]
      by_cases h1 : "datafield_names" ∈ g.attrs.map Prod.fst <;>
        by_cases h2 : "dimensions" ∈ g.attrs.map Prod.fst <;>
          simp [h1, h2]

/-- C6 (code bug evidence): the mutating attribute operations do NOT
surface their errors.  Adding an attribute that already exists raises the
already-exists `AttributeError` but the handler catches and PRINTS it and
the call returns normally with the file unchanged; replacing a missing
attribute likewise only prints its does-not-exist error. -/
theorem attribute_errors_swallowed :
    hdf5_add_attribute (some tinySnap) "/data" "dimensions" (.i32 .little) [.num 1] =
      ⟨some tinySnap, none,
        [.attributeError "Attribute already exists! please use hdf5_replace_attribute method instead"],
        true⟩ ∧
    hdf5_replace_attribute (some tinySnap) "/data" "absent" [.num 1] =
      ⟨some tinySnap, none,
        [.attributeError "Attribute does not exists! please use hdf5_add_attribute method instead"],
        true⟩ := by decide

/-- C7 (code bug evidence): `hdf5_read_attribute` and `hdf5_read_dataset`
have no protected region, so when the parent path or the attribute or
dataset lookup fails, the exception is raised before `fid.close()` and
the container handle is NOT released. -/
theorem read_operations_leak_handle_on_error :
    ((hdf5_read_attribute (some tinySnap) "/missing" "dimensions").released = false ∧
      (hdf5_read_attribute (some tinySnap) "/missing" "dimensions").res =
        .error (.attributeError "NoneType object has no attribute attrs")) ∧
    ((hdf5_read_attribute (some tinySnap) "/data" "absent").released = false ∧
      (hdf5_read_attribute (some tinySnap) "/data" "absent").res = .error .keyError) ∧
    ((hdf5_read_dataset (some tinySnap) "/missing" "C").released = false ∧
      (hdf5_read_dataset (some tinySnap) "/missing" "C").res = .error .typeError) ∧
    ((hdf5_read_dataset (some tinySnap) "/data" "absent").released = false ∧
      (hdf5_read_dataset (some tinySnap) "/data" "absent").res = .error .keyError) := by
  decide

/-- C3: for every existing attribute, `hdf5_replace_attribute` reads the
replacement type from the existing attribute (never from the caller) and
leaves the stored element type unchanged across any number of replace
calls; a single call changes only the value, re-encoded into that type. -/
theorem replaceAttribute_type_invariant (c : Container) (pp nm : String)
    (g : HGroup) (a : HAttr) (ds : List (List HElem))
    (h1 : getGroup c pp = some g)
    (hnd : (g.attrs.map Prod.fst).Nodup)
    (h2 : lookupA g.attrs nm = some a) :
    (∃ c2 g2 a2, replaceMany (some c) pp nm ds = some c2 ∧ getGroup c2 pp = some g2 ∧
      lookupA g2.attrs nm = some a2 ∧ a2.atype = a.atype) ∧
    (∀ d vals, coerceList a.atype d = some vals →
      ∃ c3 g3, (hdf5_replace_attribute (some c) pp nm d).file = some c3 ∧
        getGroup c3 pp = some g3 ∧
        lookupA g3.attrs nm = some (⟨a.atype, vals⟩ : HAttr)) := by
  constructor
  · have h := replaceMany_preserves_inv pp nm a.atype ds (some c)
      ⟨c, g, a, rfl, h1, hnd, h2, rfl⟩
    obtain ⟨c2, g2, a2, hf, hg, _, hl, ht⟩ := h
    exact ⟨c2, g2, a2, hf, hg, hl, ht⟩
  · intro d vals hc
    rw [replace_attribute_file c pp nm d h1 h2]
    refine ⟨_, _, rfl, getGroup_setGroup_self .., ?_⟩
    rw [hc]
    exact lookupA_replaced_self nm _ hnd

/-- C3 witness: an int32 attribute replaced twice with new integer values
still exists with element type int32 afterwards. -/
theorem replaceAttribute_type_invariant_witness :
    getGroup attrC "/g" = some attrG ∧ (attrG.attrs.map Prod.fst).Nodup ∧
    lookupA attrG.attrs "a" = some (⟨.i32 .little, [.num 5]⟩ : HAttr) ∧
    (∃ c2 g2 a2, replaceMany (some attrC) "/g" "a" [[.num 7], [.num 9]] = some c2 ∧
      getGroup c2 "/g" = some g2 ∧ lookupA g2.attrs "a" = some a2 ∧
      a2.atype = HType.i32 .little) :=
  ⟨by decide, by decide, by decide, by
    have h := replaceAttribute_type_invariant attrC "/g" "a" attrG
      ⟨.i32 .little, [.num 5]⟩ [[.num 7], [.num 9]] (by decide) (by decide) (by decide)
    exact h.1⟩

/-- C4: `hdf5_overwrite_dataset` replaces only the values of an existing
dataset: the on-disk element type and shape are unchanged (the type still
reported by `hdf5_get_dataset_type`), and the new values are coerced to
the existing on-disk type before being stored, so reading back yields the
old-type encoding of the new input. -/
theorem overwriteDataset_preserves_type (c : Container) (pp nm : String)
    (g : HGroup) (d : HDataset) (new vals : List HElem)
    (h1 : getGroup c pp = some g) (h2 : lookupA g.dsets nm = some d)
    (hl : new.length = d.dvals.length)
    (hc : coerceList d.dtype new = some vals) :
    (hdf5_overwrite_dataset (some c) pp nm new).raised = none ∧
    (hdf5_overwrite_dataset (some c) pp nm new).released = true ∧
    (hdf5_overwrite_dataset (some c) pp nm new).file =
      some (setGroup c pp { g with dsets := setA g.dsets nm ⟨d.dtype, d.shape, vals⟩ }) ∧
    (hdf5_get_dataset_type (hdf5_overwrite_dataset (some c) pp nm new).file pp nm).res =
      some d.dtype ∧
    (hdf5_read_dataset (hdf5_overwrite_dataset (some c) pp nm new).file pp nm).res =
      .ok vals := by
  unfold hdf5_overwrite_dataset
  dsimp only
  rw [h1]
  dsimp only
  rw [h2]
  dsimp only
  rw [if_pos hl, hc]
  dsimp only
  refine ⟨rfl, rfl, rfl, ?_, ?_⟩
  · unfold hdf5_get_dataset_type
    dsimp only
    rw [getGroup_setGroup_self]
    dsimp only
    rw [lookupA_setA_self]
  · unfold hdf5_read_dataset
    dsimp only
    rw [getGroup_setGroup_self]
    dsimp only
    rw [lookupA_setA_self]

/-- C4 witness: a float64 dataset overwritten with float32-typed input
values still reports element type float64 and reads back as the float64
rendering of that input (exact, since float32 values widen exactly). -/
theorem overwriteDataset_preserves_type_witness :
    getGroup ovC "/data" = some ovG ∧
    lookupA ovG.dsets "C" = some (⟨.f64 .little, [2], [.num 1, .num 2]⟩ : HDataset) ∧
    ([HElem.num 7, HElem.num 9].length = 2) ∧
    coerceList (.f64 .little) [.num 7, .num 9] = some [.num 7, .num 9] ∧
    ((hdf5_overwrite_dataset (some ovC) "/data" "C" [.num 7, .num 9]).raised = none ∧
    (hdf5_overwrite_dataset (some ovC) "/data" "C" [.num 7, .num 9]).released = true ∧
    (hdf5_overwrite_dataset (some ovC) "/data" "C" [.num 7, .num 9]).file =
      some (setGroup ovC "/data"
        { ovG with dsets := setA ovG.dsets "C" ⟨.f64 .little, [2], [.num 7, .num 9]⟩ }) ∧
    (hdf5_get_dataset_type
      (hdf5_overwrite_dataset (some ovC) "/data" "C" [.num 7, .num 9]).file "/data" "C").res =
      some (.f64 .little) ∧
    (hdf5_read_dataset
      (hdf5_overwrite_dataset (some ovC) "/data" "C" [.num 7, .num 9]).file "/data" "C").res =
      .ok [.num 7, .num 9]) :=
  ⟨by decide, by decide, by decide, by decide,
    overwriteDataset_preserves_type ovC "/data" "C" ovG
      ⟨.f64 .little, [2], [.num 1, .num 2]⟩ [.num 7, .num 9] [.num 7, .num 9]
      (by decide) (by decide) (by decide) (by decide)⟩

/-- C10: every field dataset written by the snapshot writer is stored
with the one 64-bit IEEE float write type of the chosen endianness — the
same type used for `time_variables` — with the input values coerced to
that type; the caller has no per-field type choice. -/
theorem dataWrite_fields_are_float64 (data : List (String × List Nat × List HElem))
    (t0 dt : ℚ) (en : Endian)
    (hne : data ≠ [])
    (hnd : (data.map Prod.fst).Nodup)
    (hnum : ∀ it ∈ data, ∀ x ∈ it.2.2, ∃ q, x = HElem.num q) :
    (hdf5_NGA_data_write data t0 dt en).raised = none ∧
    ∃ g : HGroup, (hdf5_NGA_data_write data t0 dt en).file = some ⟨[("data", g)]⟩ ∧
      lookupA g.attrs "time_variables" = some ⟨.f64 en, [.num dt, .num t0]⟩ ∧
      ∀ it ∈ data, lookupA g.dsets it.1 = some ⟨.f64 en, it.2.1, it.2.2⟩ := by
  obtain ⟨d0, rest, rfl⟩ := List.exists_cons_of_ne_nil hne
  obtain ⟨n0, sh0, dv0⟩ := d0
  have hco : ∀ it ∈ (n0, sh0, dv0) :: rest,
      coerceList (.f64 en) it.2.2 = some it.2.2 := fun it hit =>
    coerceList_f64_allnum en (hnum it hit)
  have htv : ∀ x ∈ [HElem.num dt, HElem.num t0], ∃ q, x = HElem.num q := by
    intro x hx
    rcases List.mem_cons.mp hx with rfl | hx
    · exact ⟨dt, rfl⟩
    rcases List.mem_cons.mp hx with rfl | hx
    · exact ⟨t0, rfl⟩
    cases hx
  have hdims : ∀ x ∈ (sh0.map fun n => HElem.num (n : ℚ)) ++
      [HElem.num ((((n0, sh0, dv0) :: rest).length : ℕ) : ℚ)], ∃ q, x = HElem.num q := by
    intro x hx
    rcases List.mem_append.mp hx with hx | hx
    · obtain ⟨m, _, rfl⟩ := List.mem_map.mp hx
      exact ⟨_, rfl⟩
    · rw [List.mem_singleton.mp hx]
      exact ⟨_, rfl⟩
  have hit : (if en = Endian.big then HType.i32 .big else HType.i32 .little) = .i32 en := by
    cases en <;> rfl
  have hft : (if en = Endian.big then HType.f64 .big else HType.f64 .little) = .f64 en := by
    cases en <;> rfl
  unfold hdf5_NGA_data_write
  dsimp only
  rw [hit, hft]
  rw [show ((n0, sh0, dv0) :: rest).map Prod.fst = n0 :: rest.map Prod.fst from rfl]
  unfold oned_attribute_write
  rw [coerceList_s_map_str_total 8]
  dsimp only
  simp only [List.get?]
  obtain ⟨dm, hdm⟩ := coerceList_i32_allnum en hdims
  rw [hdm]
  dsimp only
  rw [coerceList_f64_allnum en htv]
  dsimp only
  obtain ⟨e1, e2, e3, e4⟩ := writeFields_spec (.f64 en) ((n0, sh0, dv0) :: rest)
    ⟨(([] ++ [("datafield_names",
        ⟨.s 8, (n0 :: rest.map Prod.fst).map fun s => .str (strFix 8 s)⟩)]) ++
      [("dimensions", ⟨.i32 en, dm⟩)]) ++
      [("time_variables", ⟨.f64 en, [.num dt, .num t0]⟩)], []⟩ hnd
    (by intro m hm; simp) hco
  cases hwf : writeFields ⟨(([] ++ [("datafield_names",
      ⟨.s 8, (n0 :: rest.map Prod.fst).map fun s => .str (strFix 8 s)⟩)]) ++
      [("dimensions", ⟨.i32 en, dm⟩)]) ++
      [("time_variables", ⟨.f64 en, [.num dt, .num t0]⟩)], []⟩
      (.f64 en) ((n0, sh0, dv0) :: rest) with
  | mk g4 err =>
      rw [hwf] at e1 e2 e3 e4
      dsimp only at e1 e2
      subst e1
      refine ⟨rfl, g4, rfl, ?_, ?_⟩
      · rw [e2]
        simp [lookupA]
      · intro it hit2
        exact e3 it hit2

/-- C10 witness: a two-field snapshot written little-endian stores both
fields and `time_variables` with the little-endian float64 type. -/
theorem dataWrite_fields_are_float64_witness :
    (([("U", [1], [HElem.num 0]), ("V", [1], [HElem.num 0])] :
        List (String × List Nat × List HElem)) ≠ []) ∧
    (([("U", [1], [HElem.num 0]), ("V", [1], [HElem.num 0])] :
        List (String × List Nat × List HElem)).map Prod.fst).Nodup ∧
    ((hdf5_NGA_data_write [("U", [1], [HElem.num 0]), ("V", [1], [HElem.num 0])]
        0 1 .little).raised = none ∧
    ∃ g : HGroup, (hdf5_NGA_data_write [("U", [1], [HElem.num 0]), ("V", [1], [HElem.num 0])]
        0 1 .little).file = some ⟨[("data", g)]⟩ ∧
      lookupA g.attrs "time_variables" = some ⟨.f64 .little, [.num 1, .num 0]⟩ ∧
      ∀ it ∈ ([("U", [1], [HElem.num 0]), ("V", [1], [HElem.num 0])] :
          List (String × List Nat × List HElem)),
        lookupA g.dsets it.1 = some ⟨.f64 .little, it.2.1, it.2.2⟩) :=
  ⟨by decide, by decide,
    dataWrite_fields_are_float64 [("U", [1], [HElem.num 0]), ("V", [1], [HElem.num 0])]
      0 1 .little (by decide) (by decide)
      (by
        intro it hit x hx
        have h : it.2.2 = [HElem.num 0] := by
          rcases List.mem_cons.mp hit with rfl | hit2
          · rfl
          rcases List.mem_cons.mp hit2 with rfl | hit3
          · rfl
          cases hit3
        rw [h] at hx
        rw [List.mem_singleton.mp hx]
        exact ⟨0, rfl⟩)⟩

/-- C8 (code bug evidence): for the scenario `x = linspace(-1,1,6)` the
config writer stores `parameters[4] = 5` (the claim holds there), but the
`xm` dataset holds only the first 4 midpoints — not the 5 pairwise
midpoints of `x` — and `ym` is sliced with the bound computed from `x`,
so it holds 4 entries of `y`-midpoints instead of the 10 pairwise
midpoints of `y`. -/
theorem config_write_midpoints_bug :
    cfgR.raised = none ∧
    (hdf5_read_attribute cfgR.file "/data" "parameters").res =
      .ok ([0, 1, 1, 1, 5, 10, 20].map fun k : ℤ => HElem.num (k : ℚ)) ∧
    (hdf5_read_dataset cfgR.file "/data" "xm").res =
      .ok (([-4/5, -2/5, 0, 2/5] : List ℚ).map HElem.num) ∧
    midpointsSpec cfgX = [-4/5, -2/5, 0, 2/5, 4/5] ∧
    ([-4/5, -2/5, 0, 2/5] : List ℚ) ≠ midpointsSpec cfgX ∧
    (hdf5_read_dataset cfgR.file "/data" "ym").res =
      .ok (([-9/5, -7/5, -1, -3/5] : List ℚ).map HElem.num) ∧
    (midpointsSpec cfgY).length = 10 ∧
    ([-9/5, -7/5, -1, -3/5] : List ℚ) ≠ midpointsSpec cfgY := by
  have hms : midpointsSpec cfgX = [-4/5, -2/5, 0, 2/5, 4/5] := by
    rw [cfgX_eq]
    norm_num [midpointsSpec, List.zipWith]
  have hmylen : (midpointsSpec cfgY).length = 10 := by
    rw [cfgY_eq]
    rfl
  have hchar : cfgR = ⟨some ⟨[("data", ⟨[
      ("simulation_name", ⟨.s 64, [.str (strFix 64 "isotropic")]⟩),
      ("parameters", ⟨.i32 .little, [0, 1, 1, 1, 5, 10, 20].map fun k : ℤ => HElem.num (k : ℚ)⟩)],
      [("mask", ⟨.i32 .little, [5, 10], zerosN 50⟩),
       ("x", ⟨.f64 .little, [cfgX.length], cfgX.map .num⟩),
       ("y", ⟨.f64 .little, [cfgY.length], cfgY.map .num⟩),
       ("z", ⟨.f64 .little, [cfgZ.length], cfgZ.map .num⟩),
       ("xm", ⟨.f64 .little, [([-4/5, -2/5, 0, 2/5] : List ℚ).length],
         ([-4/5, -2/5, 0, 2/5] : List ℚ).map .num⟩),
       ("ym", ⟨.f64 .little, [([-9/5, -7/5, -1, -3/5] : List ℚ).length],
         ([-9/5, -7/5, -1, -3/5] : List ℚ).map .num⟩),
       ("zm", ⟨.f64 .little, [([-19/5, -17/5, -3, -13/5] : List ℚ).length],
         ([-19/5, -17/5, -3, -13/5] : List ℚ).map .num⟩)]⟩)]⟩,
      none, true⟩ := by
    unfold cfgR
    rw [config_write_file "isotropic" cfgX cfgY cfgZ 0 1 1 1 [] (zerosN 50) (zerosN 50)
      ([0, 1, 1, 1, 5, 10, 20].map fun k : ℤ => HElem.num (k : ℚ)) [5, 10] .little
      [-4/5, -2/5, 0, 2/5] [-9/5, -7/5, -1, -3/5] [-19/5, -17/5, -3, -13/5]
      (by decide) (by decide) cfg_hxm cfg_hym cfg_hzm]
  rw [hchar]
  refine ⟨rfl, ?_, ?_, hms, ?_, ?_, hmylen, ?_⟩
  · unfold hdf5_read_attribute
    dsimp only
    rw [getGroup_single _ trimSlash_data1]
    dsimp only
    simp [lookupA]
  · unfold hdf5_read_dataset
    dsimp only
    rw [getGroup_single _ trimSlash_data1]
    dsimp only
    simp [lookupA]
  · rw [hms]
    intro h
    have hl := congrArg List.length h
    norm_num at hl
  · unfold hdf5_read_dataset
    dsimp only
    rw [getGroup_single _ trimSlash_data1]
    dsimp only
    simp [lookupA]
  · intro h
    rw [← h] at hmylen
    norm_num at hmylen

end RFML
